import Mathlib

/-!
# Farming Command Center — verification of the attribution/deduplication core

Shallow embedding of the deterministic core of the invoice-ingestion pipeline:

* `Py`           — models of the Python string primitives the sources rely on
                   (`str.lower`, `str.strip`, `in`, `re.sub` for the specific
                   patterns used, ASCII fragment of `\w` and `\s`);
* `SHA256`       — executable SHA-256 over byte lists (`hashlib.sha256(...).hexdigest()`);
* `CliMain`      — pure helpers of `src/cli/main.py` (fingerprints, invoice keys);
* `FarmTagger`   — `src/farm_tagger.py` (deterministic scoring classifier);
* `CoreRules`    — `src/core/rules.py` (dynamic rule engine, rule ids, upsert,
                   collision detection; `generate_rule_id`, `upsert_dynamic_rule`
                   and `check_account_collision` are line-identical in `src/rules.py`);
* `ReviewManual` — `src/review_manual.py` (reinforcement synthesizer);
* `Validator`    — `src/core/validator.py` (payload validation, cents normalization);
* `Pipeline`     — `src/cli/main.py` `process_single_invoice` over an explicit
                   ledger state, with the external collaborators (path check,
                   vision extraction, LLM parse) passed in as outcome values.

Machine reals of the Python sources (float scores, confidences, amounts) are
modelled with `Rat`; Python `round` (banker's rounding) and decimal
`ROUND_HALF_UP` are modelled exactly on `Rat`.
-/

attribute [local semireducible] Rat.mul Rat.add Rat.sub Rat.inv Rat.ofScientific

deriving instance DecidableEq for Except

namespace Py

/-- Model of Python's `\s` class (ASCII fragment used by this repository's text). -/
def isSpaceChar (c : Char) : Bool :=
  c = ' ' || c = '\t' || c = '\n' || c = '\r' || c = '\x0b' || c = '\x0c'

/-- Model of Python's `\w` class (ASCII fragment): alphanumerics and underscore. -/
def isWordChar (c : Char) : Bool :=
  c.isAlphanum || c = '_'

/-- Python `str.strip()`: drop leading and trailing whitespace. -/
def strip (s : String) : String :=
  ⟨(s.toList.dropWhile isSpaceChar).reverse.dropWhile isSpaceChar |>.reverse⟩

/-- Python `str.lower()` (ASCII model; `String.toLower` maps `Char.toLower`
over the characters). -/
def lower (s : String) : String := ⟨s.toList.map Char.toLower⟩

/-- Collapse each maximal run of whitespace to a single space, tracking whether
the previous character was whitespace. Models `re.sub(r"\s+", " ", s)`. -/
def collapseWsAux (inSpace : Bool) : List Char → List Char
  | [] => []
  | c :: rest =>
    if isSpaceChar c then
      if inSpace then collapseWsAux true rest
      else ' ' :: collapseWsAux true rest
    else c :: collapseWsAux false rest

/-- `re.sub(r"\s+", " ", s)` on a string. -/
def collapseWhitespace (s : String) : String := ⟨collapseWsAux false s.toList⟩

/-- Substring containment on character lists (Python's `needle in hay`). -/
def containsSub (needle hay : List Char) : Bool :=
  needle.isPrefixOf hay ||
    match hay with
    | [] => false
    | _ :: t => containsSub needle t

/-- Python `needle in hay` on strings. -/
def inStr (needle hay : String) : Bool := containsSub needle.toList hay.toList

/-- Python truthiness of an optional string: `None` and `""` are falsy. -/
def truthy (o : Option String) : Bool :=
  match o with
  | none => false
  | some s => s ≠ ""

/-- Python `a or b` on optional strings (falsy left operand selects the right). -/
def pyOr (a b : Option String) : Option String :=
  if truthy a then a else b

/-- Python `round` on an exact rational: round-half-to-even (banker's rounding). -/
def pyRound (q : Rat) : Int :=
  let f := ⌊q⌋
  let r := q - f
  if r < 1/2 then f
  else if 1/2 < r then f + 1
  else if f % 2 = 0 then f else f + 1

/-- `round(q, 2)` on an exact rational. -/
def round2 (q : Rat) : Rat := (pyRound (q * 100) : Rat) / 100

/-- Python `s.replace(pat, rep)` (all non-overlapping occurrences, left to
right), fuel-based for structural recursion; the fuel is the text length,
which always suffices as each step consumes at least one character. An empty
pattern (never used by the sources) leaves the text unchanged. -/
def replaceFuel (pat rep : List Char) : Nat → List Char → List Char
  | _, [] => []
  | 0, l => l
  | f + 1, c :: t =>
    if pat ≠ [] && pat.isPrefixOf (c :: t) then
      rep ++ replaceFuel pat rep f ((c :: t).drop pat.length)
    else c :: replaceFuel pat rep f t

/-- Python `s.replace(pat, rep)` on strings. -/
def replace (s pat rep : String) : String :=
  ⟨replaceFuel pat.toList rep.toList s.toList.length s.toList⟩

/-- Python `s.startswith(pre)`. -/
def startsWith (s pre : String) : Bool := pre.toList.isPrefixOf s.toList

/-- Python `s.endswith(suf)`. -/
def endsWith (s suf : String) : Bool := suf.toList.reverse.isPrefixOf s.toList.reverse

/-- Lexicographic order on character lists by code point (Python string `<=`). -/
def listLe : List Char → List Char → Bool
  | [], _ => true
  | _ :: _, [] => false
  | a :: as, b :: bs =>
    if a.toNat < b.toNat then true
    else if b.toNat < a.toNat then false
    else listLe as bs

/-- Python string `<=` (lexicographic by code point). -/
def strLe (a b : String) : Bool := listLe a.toList b.toList

theorem listLe_total (a b : List Char) : listLe a b || listLe b a := by
  induction a generalizing b with
  | nil => simp [listLe]
  | cons x xs ih =>
    cases b with
    | nil => simp [listLe]
    | cons y ys =>
      by_cases h1 : x.toNat < y.toNat
      · simp [listLe, h1]
      · by_cases h2 : y.toNat < x.toNat
        · simp [listLe, h1, h2]
        · simpa [listLe, h1, h2] using ih ys

theorem listLe_trans (a b c : List Char) (h1 : listLe a b = true)
    (h2 : listLe b c = true) : listLe a c = true := by
  induction a generalizing b c with
  | nil => simp [listLe]
  | cons x xs ih =>
    cases b with
    | nil => simp [listLe] at h1
    | cons y ys =>
      cases c with
      | nil => simp [listLe] at h2
      | cons z zs =>
        simp only [listLe] at h1 h2 ⊢
        by_cases hxy : x.toNat < y.toNat
        · by_cases hyz : y.toNat < z.toNat
          · simp [Nat.lt_trans hxy hyz]
          · by_cases hzy : z.toNat < y.toNat
            · simp [hyz, hzy] at h2
            · have hyz2 : y.toNat = z.toNat := Nat.le_antisymm (Nat.le_of_not_lt hzy) (Nat.le_of_not_lt hyz)
              simp [hyz2 ▸ hxy]
        · by_cases hyx : y.toNat < x.toNat
          · simp [hxy, hyx] at h1
          · have hxy2 : x.toNat = y.toNat := Nat.le_antisymm (Nat.le_of_not_lt hyx) (Nat.le_of_not_lt hxy)
            simp only [hxy, hyx, if_false, if_neg] at h1
            by_cases hyz : y.toNat < z.toNat
            · simp [hxy2 ▸ hyz]
            · by_cases hzy : z.toNat < y.toNat
              · simp [hyz, hzy] at h2
              · have hyz2 : y.toNat = z.toNat := Nat.le_antisymm (Nat.le_of_not_lt hzy) (Nat.le_of_not_lt hyz)
                have hxz : ¬ x.toNat < z.toNat := by omega
                have hzx : ¬ z.toNat < x.toNat := by omega
                simp only [hxz, hzx, if_false, if_neg]
                simp only [hyz, hzy, if_false, if_neg] at h2
                exact ih ys zs h1 h2

/-- Insert `a` into a sorted list, after every element `b` with `le b a`:
the insertion step of a stable sort. -/
def stableInsert (le : α → α → Bool) (a : α) : List α → List α
  | [] => [a]
  | b :: l => if le b a then b :: stableInsert le a l else a :: b :: l

/-- Tail of the stable sort: insert the remaining elements in order. -/
def stableSortAux (le : α → α → Bool) : List α → List α → List α
  | acc, [] => acc
  | acc, a :: rest => stableSortAux le (stableInsert le a acc) rest

/-- Stable sort by a total preorder `le`: the model of Python `sorted` /
`list.sort`, which are stable. For a total, transitive `le` a stable sort is
unique, so this agrees with any other stable sort implementation. -/
def stableSort (le : α → α → Bool) (l : List α) : List α := stableSortAux le [] l

theorem stableInsert_perm (le : α → α → Bool) (a : α) (l : List α) :
    List.Perm (stableInsert le a l) (a :: l) := by
  induction l with
  | nil => simp [stableInsert]
  | cons b t ih =>
    by_cases h : le b a
    · simp only [stableInsert, h, if_true]
      exact (ih.cons b).trans (List.Perm.swap a b t)
    · simp [stableInsert, h]

theorem stableSortAux_perm (le : α → α → Bool) (l : List α) :
    ∀ acc : List α, List.Perm (stableSortAux le acc l) (acc ++ l) := by
  induction l with
  | nil => intro acc; simp [stableSortAux]
  | cons a rest ih =>
    intro acc
    have h1 := ih (stableInsert le a acc)
    have h2 : List.Perm (stableInsert le a acc ++ rest) (acc ++ a :: rest) := by
      have := (stableInsert_perm le a acc).append_right rest
      exact this.trans (List.perm_middle.symm)
    exact h1.trans h2

/-- `stableSort` permutes its input. -/
theorem stableSort_perm (le : α → α → Bool) (l : List α) :
    List.Perm (stableSort le l) l := by
  simpa using stableSortAux_perm le l []

theorem stableInsert_sorted (le : α → α → Bool)
    (htrans : ∀ a b c, le a b = true → le b c = true → le a c = true)
    (htot : ∀ a b, le a b || le b a)
    (a : α) (l : List α) (hl : l.Pairwise (fun x y => le x y = true)) :
    (stableInsert le a l).Pairwise (fun x y => le x y = true) := by
  induction l with
  | nil => simp [stableInsert]
  | cons b t ih =>
    rcases List.pairwise_cons.mp hl with ⟨hb, ht⟩
    by_cases h : le b a
    · simp only [stableInsert, h, if_true]
      refine List.pairwise_cons.mpr ⟨?_, ih ht⟩
      intro x hx
      have hx2 := (List.Perm.mem_iff (stableInsert_perm le a t)).mp hx
      rcases List.mem_cons.mp hx2 with hxa | hxt
      · simp [hxa, h]
      · exact hb x hxt
    · have hab : le a b := by
        rcases Bool.or_eq_true_iff.mp (htot b a) with h1 | h1
        · exact absurd h1 h
        · exact h1
      simp only [stableInsert, h, if_false]
      refine List.pairwise_cons.mpr ⟨?_, hl⟩
      intro x hx
      rcases List.mem_cons.mp hx with hxb | hxt
      · simp [hxb, hab]
      · exact htrans a b x hab (hb x hxt)

theorem stableSortAux_sorted (le : α → α → Bool)
    (htrans : ∀ a b c, le a b = true → le b c = true → le a c = true)
    (htot : ∀ a b, le a b || le b a) (l : List α) :
    ∀ acc : List α, acc.Pairwise (fun x y => le x y = true) →
      (stableSortAux le acc l).Pairwise (fun x y => le x y = true) := by
  induction l with
  | nil => intro acc hacc; simpa [stableSortAux] using hacc
  | cons a rest ih =>
    intro acc hacc
    exact ih (stableInsert le a acc) (stableInsert_sorted le htrans htot a acc hacc)

/-- `stableSort` sorts with respect to a transitive, total `le`. -/
theorem stableSort_sorted (le : α → α → Bool)
    (htrans : ∀ a b c, le a b = true → le b c = true → le a c = true)
    (htot : ∀ a b, le a b || le b a) (l : List α) :
    (stableSort le l).Pairwise (fun x y => le x y = true) := by
  exact stableSortAux_sorted le htrans htot l [] (by simp)

end Py

namespace SHA256

/-- 32-bit addition. -/
def add32 (a b : Nat) : Nat := (a + b) % 4294967296

/-- 32-bit right rotation. -/
def rotr (n x : Nat) : Nat := ((x >>> n) ||| (x <<< (32 - n))) % 4294967296

/-- 32-bit complement. -/
def bnot32 (x : Nat) : Nat := x ^^^ 4294967295

/-- SHA-256 choose function. -/
def ch (x y z : Nat) : Nat := (x &&& y) ^^^ (bnot32 x &&& z)

/-- SHA-256 majority function. -/
def maj (x y z : Nat) : Nat := (x &&& y) ^^^ (x &&& z) ^^^ (y &&& z)

/-- SHA-256 big sigma 0. -/
def bigSigma0 (x : Nat) : Nat := rotr 2 x ^^^ rotr 13 x ^^^ rotr 22 x

/-- SHA-256 big sigma 1. -/
def bigSigma1 (x : Nat) : Nat := rotr 6 x ^^^ rotr 11 x ^^^ rotr 25 x

/-- SHA-256 small sigma 0. -/
def smallSigma0 (x : Nat) : Nat := rotr 7 x ^^^ rotr 18 x ^^^ (x >>> 3)

/-- SHA-256 small sigma 1. -/
def smallSigma1 (x : Nat) : Nat := rotr 17 x ^^^ rotr 19 x ^^^ (x >>> 10)

/-- The 64 SHA-256 round constants. -/
def K : List Nat :=
  [1116352408, 0x71374491, 0xb5c0fbcf, 0xe9b5dba5, 0x3956c25b, 0x59f111f1, 0x923f82a4, 0xab1c5ed5,
   3624381080, 0x12835b01, 0x243185be, 0x550c7dc3, 0x72be5d74, 0x80deb1fe, 0x9bdc06a7, 0xc19bf174,
   3835390401, 0xefbe4786, 0x0fc19dc6, 0x240ca1cc, 0x2de92c6f, 0x4a7484aa, 0x5cb0a9dc, 0x76f988da,
   2554220882, 0xa831c66d, 0xb00327c8, 0xbf597fc7, 0xc6e00bf3, 0xd5a79147, 0x06ca6351, 0x14292967,
   666307205, 0x2e1b2138, 0x4d2c6dfc, 0x53380d13, 0x650a7354, 0x766a0abb, 0x81c2c92e, 0x92722c85,
   2730485921, 0xa81a664b, 0xc24b8b70, 0xc76c51a3, 0xd192e819, 0xd6990624, 0xf40e3585, 0x106aa070,
   430227734, 0x1e376c08, 0x2748774c, 0x34b0bcb5, 0x391c0cb3, 0x4ed8aa4a, 0x5b9cca4f, 0x682e6ff3,
   1955562222, 0x78a5636f, 0x84c87814, 0x8cc70208, 0x90befffa, 0xa4506ceb, 0xbef9a3f7, 0xc67178f2]

/-- The initial SHA-256 hash state. -/
def H0 : List Nat :=
  [0x6a09e667, 0xbb67ae85, 0x3c6ef372, 0xa54ff53a, 0x510e527f, 0x9b05688c, 0x1f83d9ab, 0x5be0cd19]

/-- Big-endian byte rendering of a value on `n` bytes. -/
def beBytes (n : Nat) (v : Nat) : List Nat :=
  match n with
  | 0 => []
  | m + 1 => ((v >>> (8 * m)) % 256) :: beBytes m v

/-- SHA-256 message padding: append `0x80`, zeros, and the 64-bit bit length. -/
def pad (msg : List Nat) : List Nat :=
  let l := msg.length
  let z := (119 - l % 64) % 64
  msg ++ 0x80 :: List.replicate z 0 ++ beBytes 8 (8 * l)

/-- Split into 64-byte blocks. Fuel-based structural recursion: `fuel` bounds the
number of steps; `blocks` supplies the list length, which always suffices. -/
def blocksAux (fuel : Nat) (l : List Nat) : List (List Nat) :=
  match fuel, l with
  | _, [] => []
  | 0, _ => []
  | f + 1, l => l.take 64 :: blocksAux f (l.drop 64)

/-- Split a byte list into 64-byte blocks. -/
def blocks (l : List Nat) : List (List Nat) := blocksAux l.length l

/-- 16 message words from a 64-byte block (big-endian). -/
def blockWords (b : List Nat) : List Nat :=
  match b with
  | b0 :: b1 :: b2 :: b3 :: rest =>
    ((b0 <<< 24) ||| (b1 <<< 16) ||| (b2 <<< 8) ||| b3) :: blockWords rest
  | _ => []

/-- Extend the 16 message words by `rounds` scheduled words. -/
def extendWords (w : List Nat) (rounds : Nat) : List Nat :=
  match rounds with
  | 0 => w
  | r + 1 =>
    let i := w.length
    let nw := add32 (add32 (smallSigma1 (w.getD (i - 2) 0)) (w.getD (i - 7) 0))
      (add32 (smallSigma0 (w.getD (i - 15) 0)) (w.getD (i - 16) 0))
    extendWords (w ++ [nw]) r

/-- One SHA-256 compression round. -/
def round1 (st : Nat × Nat × Nat × Nat × Nat × Nat × Nat × Nat) (kw : Nat × Nat) :
    Nat × Nat × Nat × Nat × Nat × Nat × Nat × Nat :=
  let (a, b, c, d, e, f, g, h) := st
  let (k, w) := kw
  let t1 := add32 h (add32 (bigSigma1 e) (add32 (ch e f g) (add32 k w)))
  let t2 := add32 (bigSigma0 a) (maj a b c)
  (add32 t1 t2, a, b, c, add32 d t1, e, f, g)

/-- Compress one block into the running hash state. -/
def compress (hs : List Nat) (block : List Nat) : List Nat :=
  let w := extendWords (blockWords block) 48
  let a0 := hs.getD 0 0
  let b0 := hs.getD 1 0
  let c0 := hs.getD 2 0
  let d0 := hs.getD 3 0
  let e0 := hs.getD 4 0
  let f0 := hs.getD 5 0
  let g0 := hs.getD 6 0
  let h0 := hs.getD 7 0
  let st := (K.zip w).foldl round1 (a0, b0, c0, d0, e0, f0, g0, h0)
  [add32 a0 st.1, add32 b0 st.2.1, add32 c0 st.2.2.1, add32 d0 st.2.2.2.1,
   add32 e0 st.2.2.2.2.1, add32 f0 st.2.2.2.2.2.1, add32 g0 st.2.2.2.2.2.2.1,
   add32 h0 st.2.2.2.2.2.2.2]

/-- SHA-256 digest of a byte list, as 32 bytes. -/
def digestBytes (msg : List Nat) : List Nat :=
  let hs := (blocks (pad msg)).foldl compress H0
  hs.flatMap (beBytes 4)

/-- UTF-8 encoding of one scalar value. -/
def charUtf8 (c : Char) : List Nat :=
  let n := c.toNat
  if n < 0x80 then [n]
  else if n < 0x800 then
    [0xc0 ||| (n >>> 6), 0x80 ||| (n &&& 0x3f)]
  else if n < 0x10000 then
    [0xe0 ||| (n >>> 12), 0x80 ||| ((n >>> 6) &&& 0x3f), 0x80 ||| (n &&& 0x3f)]
  else
    [0xf0 ||| (n >>> 18), 0x80 ||| ((n >>> 12) &&& 0x3f),
     0x80 ||| ((n >>> 6) &&& 0x3f), 0x80 ||| (n &&& 0x3f)]

/-- UTF-8 bytes of a string (`s.encode("utf-8")`). -/
def utf8Bytes (s : String) : List Nat := s.toList.flatMap charUtf8

/-- Lower-case hex digit. -/
def hexChar (n : Nat) : Char :=
  "0123456789abcdef".toList.getD n '0'

/-- Two-character hex rendering of a byte. -/
def byteHex (b : Nat) : List Char := [hexChar (b / 16), hexChar (b % 16)]

/-- `hashlib.sha256(s.encode("utf-8")).hexdigest()`. -/
def hexdigest (s : String) : String :=
  ⟨(digestBytes (utf8Bytes s)).flatMap byteHex⟩

/-- `hexdigest(s)[:n]` (Python slice = list take). -/
def hexPrefix (n : Nat) (s : String) : String :=
  ⟨(digestBytes (utf8Bytes s)).flatMap byteHex |>.take n⟩

end SHA256

namespace CliMain

/-- `hash_text` (src/cli/main.py): SHA-256 of the raw text, 16-hex prefix. -/
def hash_text (text : String) : String :=
  "sha256:" ++ SHA256.hexPrefix 16 text

/-- `normalize_for_fingerprint` (src/cli/main.py): lowercase, replace every
non-word/non-space character with a space, collapse whitespace, trim, and
truncate to 50,000 characters. -/
def normalize_for_fingerprint (text : String) : String :=
  let t1 := Py.lower text
  let t2 : String := ⟨t1.toList.map (fun c => if !(Py.isWordChar c || Py.isSpaceChar c) then ' ' else c)⟩
  let t3 := Py.collapseWhitespace t2
  let t4 := Py.strip t3
  ⟨t4.toList.take 50000⟩

/-- `compute_content_fingerprint` (src/cli/main.py): `"sha256:" + first16hex(sha256(normalized))`. -/
def compute_content_fingerprint (text : String) : String :=
  let normalized := normalize_for_fingerprint text
  "sha256:" ++ SHA256.hexPrefix 16 normalized

/-- `norm_identifier` (src/cli/main.py): lowercase, strip, remove `-_/` and
whitespace, then remove all remaining non-word characters. `None`/empty yields `""`. -/
def norm_identifier (s : Option String) : String :=
  if !Py.truthy s then ""
  else
    let n := Py.strip (Py.lower (s.getD ""))
    let n1 := n.toList.filter (fun c => !(c = '-' || c = '_' || c = '/' || Py.isSpaceChar c))
    ⟨n1.filter Py.isWordChar⟩

/-- `norm_date` (src/cli/main.py): conservative — trim only. -/
def norm_date (date_str : Option String) : String :=
  if !Py.truthy date_str then ""
  else Py.strip (date_str.getD "")

/-- `amount_to_cents` (src/cli/main.py): `str(int(round(amount * 100)))`;
Python `round` is banker's rounding. `None` yields `"0"`. -/
def amount_to_cents (amount : Option Rat) : String :=
  match amount with
  | none => "0"
  | some q => toString (Py.pyRound (q * 100))

/-- `norm_address` (src/cli/main.py): lowercase, strip, collapse whitespace,
remove commas and periods. -/
def norm_address (address : Option String) : String :=
  if !Py.truthy address then ""
  else
    let n := Py.strip (Py.lower (address.getD ""))
    let n1 := Py.collapseWhitespace n
    ⟨n1.toList.filter (fun c => !(c = ',' || c = '.'))⟩

/-- Structured invoice payload as produced by `_normalize_structured_invoice`
(src/llm_parser.py): string fields are stripped with `""` collapsed to `None`,
and `total_amount` is coerced to `float | None`. -/
structure ParsedInvoice where
  vendor_name : Option String := none
  invoice_number : Option String := none
  invoice_date : Option String := none
  due_date : Option String := none
  total_amount : Option Rat := none
  service_address : Option String := none
  account_number : Option String := none
deriving Repr, DecidableEq

/-- `compute_invoice_key` (src/cli/main.py): tiered deterministic invoice key.
Tier A: vendor + account + invoice number; Tier B: vendor + account + date +
amount; Tier C: vendor + address + date + amount. -/
def compute_invoice_key (vendor_key : Option String)
    (parsed_invoice : Option ParsedInvoice) : Option String :=
  if !Py.truthy vendor_key || parsed_invoice.isNone then none
  else
    let vk := vendor_key.getD ""
    let p := parsed_invoice.getD {}
    if Py.truthy p.account_number && Py.truthy p.invoice_number then
      some (vk ++ "|acct:" ++ norm_identifier p.account_number
        ++ "|inv:" ++ norm_identifier p.invoice_number)
    else if Py.truthy p.account_number && Py.truthy p.invoice_date
        && p.total_amount.isSome then
      some (vk ++ "|acct:" ++ norm_identifier p.account_number
        ++ "|date:" ++ norm_date p.invoice_date
        ++ "|amt_cents:" ++ amount_to_cents p.total_amount)
    else if Py.truthy p.service_address && Py.truthy p.invoice_date
        && p.total_amount.isSome then
      some (vk ++ "|addr:" ++ norm_address p.service_address
        ++ "|date:" ++ norm_date p.invoice_date
        ++ "|amt_cents:" ++ amount_to_cents p.total_amount)
    else none

/-- `to_cents` (src/cli/main.py): `int(round(float(value) * 100))`, `None` → 0. -/
def to_cents (value : Option Rat) : Int :=
  match value with
  | none => 0
  | some q => Py.pyRound (q * 100)

end CliMain

namespace FarmTagger

/-- Vendor configuration attached to a farm (`farms.json` vendor block). The
`*_numbers` lists are used only by collision scanning (src/core/rules.py). -/
structure VendorCfg where
  name : Option String := none
  identifiers : List String := []
  keywords : List String := []
  account_numbers : List String := []
  meter_numbers : List String := []
  policy_numbers : List String := []
  loan_numbers : List String := []
  order_numbers : List String := []
  customer_numbers : List String := []
deriving Repr, DecidableEq

/-- A configured farm. `id` models the resolved `farm.get("id") or
farm.get("farm_id") or ""`; `name` models `farm.get("name")` with `""` for a
missing/empty name. Vendors keep the JSON object insertion order. -/
structure Farm where
  id : String
  name : String := ""
  identifiers : List String := []
  keywords : List String := []
  vendors : List (String × VendorCfg) := []
deriving Repr, DecidableEq

/-- The farms configuration (`{"farms": [...]}`). -/
structure FarmsConfig where
  farms : List Farm
deriving Repr, DecidableEq

/-- `TagCandidate` (src/farm_tagger.py). -/
structure TagCandidate where
  farm_id : String
  farm_name : String
  score : Rat
  matched_rules : List String
deriving Repr, DecidableEq

/-- `TagResult` (src/farm_tagger.py). -/
structure TagResult where
  top_candidate : Option TagCandidate
  all_candidates : List TagCandidate
  confidence : Rat
  needs_manual_review : Bool
  reason : String
deriving Repr, DecidableEq

/-- `farm_name = farm.get("name") or farm_id`. -/
def farm_display_name (f : Farm) : String :=
  if f.name ≠ "" then f.name else f.id

/-- `[str(x).strip().lower() for x in l if x]`. -/
def cleaned_terms (l : List String) : List String :=
  (l.filter (fun x => x ≠ "")).map (fun x => Py.lower (Py.strip x))

/-- `_score_farm` (src/farm_tagger.py): additive score of one farm against the
lowercased document text, with the ordered list of matched rule names.
Farm identifiers +1.0, farm keywords +0.15, vendor identifiers +1.0, vendor
keywords +0.25. -/
def score_farm (document_lower : String) (farm : Farm) : Rat × List String :=
  let start : Rat × List String := (0, [])
  let afterIdents := (cleaned_terms farm.identifiers).foldl
    (fun acc ident =>
      if ident ≠ "" && Py.inStr ident document_lower then
        (acc.1 + 1, acc.2 ++ ["identifier_match"])
      else acc) start
  let afterKw := (cleaned_terms farm.keywords).foldl
    (fun acc kw =>
      if kw ≠ "" && Py.inStr kw document_lower then
        (acc.1 + 3/20, acc.2 ++ ["farm_keyword"])
      else acc) afterIdents
  farm.vendors.foldl
    (fun acc vc =>
      let vcfg := vc.2
      let acc1 := (cleaned_terms vcfg.identifiers).foldl
        (fun a vi =>
          if vi ≠ "" && Py.inStr vi document_lower then
            (a.1 + 1, a.2 ++ ["vendor_identifier_match"])
          else a) acc
      (cleaned_terms vcfg.keywords).foldl
        (fun a vk =>
          if vk ≠ "" && Py.inStr vk document_lower then
            (a.1 + 1/4, a.2 ++ ["vendor_keyword"])
          else a) acc1)
    afterKw

/-- The per-farm candidate built inside `tag_document_text`: present exactly
when the farm scores positive. -/
def candidate_of (document_lower : String) (farm : Farm) : Option TagCandidate :=
  let sr := score_farm document_lower farm
  if sr.1 > 0 then
    some { farm_id := farm.id, farm_name := farm_display_name farm,
           score := sr.1, matched_rules := sr.2 }
  else none

/-- The candidate list of `tag_document_text`: positive-scoring farms, sorted by
score descending (stable, like Python's `list.sort(reverse=True)`), with
`matched_rules` deduplicated preserving first occurrences
(`list(dict.fromkeys(...))`). -/
def ranked_candidates (document_text : String) (farms : List Farm) : List TagCandidate :=
  let document_lower := Py.lower document_text
  let cands : List TagCandidate := farms.filterMap (candidate_of document_lower)
  let sorted := Py.stableSort (fun c1 c2 => decide (c2.score ≤ c1.score)) cands
  sorted.map (fun c => { c with matched_rules := c.matched_rules.eraseDups })

/-- The confidence threshold cascade of `tag_document_text`, evaluated top-down. -/
def confidence_policy (top_score gap : Rat) : Rat :=
  if top_score ≥ 1 ∧ gap ≥ 1/2 then 19/20
  else if top_score ≥ 1 ∧ gap ≥ 3/10 then 17/20
  else if top_score ≥ 1/2 then 7/10
  else top_score / 2

/-- Whether a matched-rule list contains an identifier-level match. -/
def has_identifier_match (mr : List String) : Bool :=
  mr.any (fun r => r = "identifier_match" || r = "vendor_identifier_match")

/-- Condition of the keyword-only multiple-candidate guard:
top candidate matched only keywords, at least two candidates, gap < 0.3. -/
def keyword_guard_fires (candidates : List TagCandidate) (gap : Rat) : Bool :=
  match candidates with
  | [] => false
  | c :: _ =>
    !has_identifier_match c.matched_rules
      && decide (candidates.length ≥ 2) && decide (gap < 3/10)

/-- `next((f for f in farms if (f.get("id") or f.get("farm_id")) == fid), None)`. -/
def find_farm (farms : List Farm) (fid : String) : Option Farm :=
  farms.find? (fun f => f.id = fid)

/-- Intersection of the vendor-key sets of two farms (Python set `&`),
listed in first-farm insertion order. -/
def shared_vendor_keys (top_farm second_farm : Farm) : List String :=
  ((top_farm.vendors.map Prod.fst).eraseDups).filter
    (fun k => (second_farm.vendors.map Prod.fst).contains k)

/-- Condition of the shared-vendor ambiguity guard: the top two candidate farms
share a vendor key and the top match was not identifier-level. -/
def vendor_guard_fires (farms : List Farm) (candidates : List TagCandidate) : Bool :=
  match candidates with
  | c1 :: c2 :: _ =>
    match find_farm farms c1.farm_id, find_farm farms c2.farm_id with
    | some tf, some sf =>
      shared_vendor_keys tf sf ≠ [] && !has_identifier_match c1.matched_rules
    | _, _ => false
  | _ => false

/-- Display text of the vendor-ambiguity reason. The Python source interpolates
a `set` repr; the model lists the shared keys in deterministic order (the
claims never inspect this text). -/
def vendor_ambiguity_reason (farms : List Farm) (candidates : List TagCandidate) : String :=
  let shared :=
    match candidates with
    | c1 :: c2 :: _ =>
      match find_farm farms c1.farm_id, find_farm farms c2.farm_id with
      | some tf, some sf => shared_vendor_keys tf sf
      | _, _ => []
    | _ => []
  "Vendor ambiguity: " ++ String.intercalate ", " shared
    ++ " appears in multiple farms; identifier match required"

/-- The post-policy adjustment block of `tag_document_text` (lines 236-266):
the keyword-only guard with its default else-branch, then the shared-vendor
guard. Returns (confidence, needs_manual_review, reason). -/
def guards_adjust (farms : List Farm) (candidates : List TagCandidate)
    (gap : Rat) (confidence0 : Rat) : Rat × Bool × String :=
  let g1 := keyword_guard_fires candidates gap
  let base :=
    if g1 then
      (min confidence0 (7/10), true,
        "Multiple farm candidates with similar keyword scores; identifier match required")
    else
      (confidence0, decide (confidence0 < 17/20),
        if confidence0 < 17/20 then "Low confidence" else "High confidence match")
  if vendor_guard_fires farms candidates then
    (min base.1 (7/10), true, vendor_ambiguity_reason farms candidates)
  else base

/-- `top_score` of `tag_document_text`: score of the best candidate, else 0. -/
def top_score_of : List TagCandidate → Rat
  | c :: _ => c.score
  | [] => 0

/-- `second_score` of `tag_document_text`: score of the runner-up, else 0. -/
def second_score_of : List TagCandidate → Rat
  | _ :: d :: _ => d.score
  | _ => 0

/-- `tag_document_text` (src/farm_tagger.py): deterministic scoring classifier. -/
def tag_document_text (document_text : String) (farms_config : FarmsConfig) : TagResult :=
  let farms := farms_config.farms
  if farms = [] then
    { top_candidate := none, all_candidates := [], confidence := 0,
      needs_manual_review := true, reason := "No farms configured" }
  else
    let candidates := ranked_candidates document_text farms
    let top_score := top_score_of candidates
    let second_score := second_score_of candidates
    let gap := top_score - second_score
    if top_score = 0 then
      { top_candidate := none, all_candidates := [], confidence := 0,
        needs_manual_review := true, reason := "Zero matches found" }
    else
      let confidence0 := confidence_policy top_score gap
      let adj := guards_adjust farms candidates gap confidence0
      { top_candidate := candidates.head?, all_candidates := candidates,
        confidence := Py.round2 adj.1, needs_manual_review := adj.2.1,
        reason := adj.2.2 }

end FarmTagger

namespace Ledger

/-- A row of the `documents` table (src/cli/main.py `insert_document`). -/
structure DocRow where
  doc_id : String
  file_name : String
  file_path : Option String := none
  raw_text_hash : Option String := none
  raw_text : Option String := none
  content_fingerprint : Option String := none
deriving Repr, DecidableEq

/-- A row of the `transactions` table (src/cli/main.py `insert_transaction_record`). -/
structure TxnRow where
  doc_id : Option String := none
  farm_id : Option String := none
  farm_name : Option String := none
  vendor_key : Option String := none
  vendor_name : Option String := none
  invoice_number : Option String := none
  invoice_date : Option String := none
  due_date : Option String := none
  total_cents : Int := 0
  service_address : Option String := none
  account_number : Option String := none
  confidence : Rat := 0
  needs_manual_review : Bool := false
  manual_override : Bool := false
  status : String := ""
  error_reason : Option String := none
  content_fingerprint : Option String := none
  invoice_key : Option String := none
  duplicate_detected : Bool := false
  duplicate_reason : Option String := none
  duplicate_of_doc_id : Option String := none
  parse_status : String := "success"
  parse_failure_reason : Option String := none
deriving Repr, DecidableEq

/-- The ledger database state: the two tables the claims are about. The audit
tables (tagging_events, manual_review_queue, transaction_line_items, vendors)
are write-only side tables not inspected by any claim and are omitted. -/
structure LedgerDB where
  documents : List DocRow
  transactions : List TxnRow
deriving Repr, DecidableEq

end Ledger

namespace CoreRules

/-- `normalize_text` (src/core/rules.py, identical in src/rules.py):
lowercase, collapse whitespace, strip. `None` yields `""`. -/
def normalize_text (value : Option String) : String :=
  Py.strip (Py.collapseWhitespace (Py.lower (value.getD "")))

/-- `normalize_identifier` (src/core/rules.py, identical in src/rules.py):
`normalize_text`, then remove `-_/` and whitespace, then remove all remaining
non-word characters. -/
def normalize_identifier (value : Option String) : String :=
  let n := normalize_text value
  let n1 := n.toList.filter (fun c => !(c = '-' || c = '_' || c = '/' || Py.isSpaceChar c))
  ⟨n1.filter Py.isWordChar⟩

/-- A rule payload handed to `generate_rule_id` / `upsert_dynamic_rule`
(`new_rule` dict). -/
structure RulePayload where
  vendor_key : Option String := none
  account_number : Option String := none
  invoice_number : Option String := none
  service_address_contains : List String := []
  keywords_any : List String := []
  farm_id : Option String := none
  priority : Option Int := none
  created_at : Option String := none
  evidence : List (String × Option String) := []
deriving Repr, DecidableEq

/-- A stored dynamic-rule record (the dict built by `upsert_dynamic_rule`). -/
structure RuleRecord where
  rule_id : String
  vendor_key : Option String := none
  account_number : Option String := none
  invoice_number : Option String := none
  service_address_contains : List String := []
  keywords_any : List String := []
  farm_id : Option String := none
  priority : Int := 100
  created_at : String := ""
  evidence : List (String × Option String) := []
deriving Repr, DecidableEq

/-- The dynamic-rules file payload (`{"version": ..., "rules": [...]}`). -/
structure RulesPayload where
  version : String := "1.0"
  rules : List RuleRecord := []
deriving Repr, DecidableEq

/-- String ascending order used to model Python `sorted` on strings
(lexicographic by code point). -/
def string_sorted (l : List String) : List String :=
  Py.stableSort Py.strLe l

/-- `generate_rule_id` (src/core/rules.py, identical in src/rules.py):
`"rule_" + sha256("|".join(key_parts))[:12]` where the key parts are the
normalized vendor key, account number and farm id, and the sorted normalized
disambiguator lists. -/
def generate_rule_id (rule_payload : RulePayload) : String :=
  let key_parts : List String :=
    [normalize_identifier rule_payload.vendor_key,
     normalize_identifier rule_payload.account_number,
     normalize_identifier rule_payload.farm_id,
     String.intercalate "|"
       (string_sorted (rule_payload.service_address_contains.map (fun x => normalize_text (some x)))),
     String.intercalate "|"
       (string_sorted (rule_payload.keywords_any.map (fun x => normalize_text (some x))))]
  let payload_str := String.intercalate "|" key_parts
  "rule_" ++ SHA256.hexPrefix 12 payload_str

/-- Sentinel for `datetime.datetime.now(datetime.UTC).isoformat()` in fields no
claim inspects. -/
def now_sentinel : String := "datetime-now"

/-- `upsert_dynamic_rule` (src/core/rules.py, identical in src/rules.py) over the
in-memory payload: the file read/atomic-rewrite pair is modelled as state in /
state out. Returns `(created, rule_id, new payload)`. -/
def upsert_dynamic_rule (payload : RulesPayload) (new_rule : RulePayload) :
    Bool × String × RulesPayload :=
  let new_rule_id := generate_rule_id new_rule
  if payload.rules.any (fun r => r.rule_id = new_rule_id) then
    (false, new_rule_id, payload)
  else
    let rule_record : RuleRecord :=
      { rule_id := new_rule_id,
        vendor_key := new_rule.vendor_key,
        account_number := new_rule.account_number,
        invoice_number := new_rule.invoice_number,
        service_address_contains := new_rule.service_address_contains,
        keywords_any := new_rule.keywords_any,
        farm_id := new_rule.farm_id,
        priority := new_rule.priority.getD 100,
        created_at := (Py.pyOr new_rule.created_at (some now_sentinel)).getD "",
        evidence := new_rule.evidence }
    (true, new_rule_id, { payload with rules := payload.rules ++ [rule_record] })

/-- A raw dynamic-rule dict as read from the rules file and fed to
`apply_dynamic_rules`: bill-to rules carry `type`/`tokens`/`match_text`/
`farm_key`; vendor+account rules carry the `RuleRecord` fields. -/
structure DynRule where
  ruleType : Option String := none
  tokens : List String := []
  match_text : Option String := none
  vendor_key : Option String := none
  account_number : Option String := none
  invoice_number : Option String := none
  service_address_contains : List String := []
  keywords_any : List String := []
  farm_key : Option String := none
  farm_id : Option String := none
  priority : Option Int := none
  rule_id : Option String := none
deriving Repr, DecidableEq

/-- `f"{x}"` of an optional string: `None` prints as `"None"`. -/
def opt_repr (o : Option String) : String :=
  match o with
  | some s => s
  | none => "None"

/-- `_build_farm_lookup(...).get(fid, {})`: dict build keeps the last farm for a
given stripped non-empty id. -/
def farm_lookup_get (farms_config : FarmTagger.FarmsConfig) (fid : String) :
    Option FarmTagger.Farm :=
  (farms_config.farms.filter
    (fun f => Py.strip f.id ≠ "" && Py.strip f.id = fid)).getLast?

/-- `farms_by_id.get(farm_id, {}).get("name") or farm_id`. -/
def farm_name_for (farms_config : FarmTagger.FarmsConfig) (fid : String) : String :=
  match farm_lookup_get farms_config fid with
  | some f => if f.name ≠ "" then f.name else fid
  | none => fid

/-- `_vendor_in_text` (src/core/rules.py): the normalized vendor key occurs in
the identifier-normalized document text, or any configured name/keyword variant
of that vendor occurs in the normalized document text. -/
def vendor_in_text (normalized_vendor_key document_lower document_identifier : String)
    (farms_config : FarmTagger.FarmsConfig) : Bool :=
  Py.inStr normalized_vendor_key document_identifier ||
    farms_config.farms.any (fun farm =>
      farm.vendors.any (fun vc =>
        if normalize_identifier (some vc.1) ≠ normalized_vendor_key then false
        else
          let candidate_terms :=
            [vc.1, (Py.pyOr vc.2.name (some "")).getD ""] ++ vc.2.keywords
          candidate_terms.any (fun term =>
            let normalized_term := normalize_text (some term)
            normalized_term ≠ "" && Py.inStr normalized_term document_lower)))

/-- `_matches_rule` (src/core/rules.py): vendor key present, account number
present in the identifier-normalized text, all `service_address_contains`
entries present (AND) and at least one `keywords_any` entry present (OR). -/
def matches_rule (rule : DynRule) (document_lower document_identifier : String)
    (farms_config : FarmTagger.FarmsConfig) : Bool :=
  let vendor_key := normalize_identifier rule.vendor_key
  let account_number := normalize_identifier rule.account_number
  if vendor_key = "" || account_number = "" then false
  else if !vendor_in_text vendor_key document_lower document_identifier farms_config then false
  else if !Py.inStr account_number document_identifier then false
  else
    let service_needles :=
      (rule.service_address_contains.filter (fun x => x ≠ "")).map (fun x => normalize_text (some x))
    if service_needles ≠ [] && !service_needles.all (fun n => Py.inStr n document_lower) then false
    else
      let keywords_any :=
        (rule.keywords_any.filter (fun x => x ≠ "")).map (fun x => normalize_text (some x))
      if keywords_any ≠ [] && !keywords_any.any (fun k => Py.inStr k document_lower) then false
      else true

/-- The tier of a vendor+account rule: 0 with a service-address clause, 1 with
keywords only, 2 bare (vendor-only fallback). -/
def rule_tier (r : DynRule) : Nat :=
  if r.service_address_contains ≠ [] then 0
  else if r.keywords_any ≠ [] then 1
  else 2

/-- The sort order of `_order_vendor_rules`: tier ascending, then priority
descending, then rule id ascending. -/
def vendor_rule_sort_le (r1 r2 : DynRule) : Bool :=
  let t1 := rule_tier r1
  let t2 := rule_tier r2
  let p1 : Int := -(r1.priority.getD 100)
  let p2 : Int := -(r2.priority.getD 100)
  let i1 := r1.rule_id.getD ""
  let i2 := r2.rule_id.getD ""
  decide (t1 < t2 ∨ (t1 = t2 ∧ (p1 < p2 ∨ (p1 = p2 ∧ Py.strLe i1 i2 = true))))

/-- `_order_vendor_rules` (src/core/rules.py): Python `sorted` is a stable sort,
modelled by the stable `Py.stableSort` over the same key order. -/
def order_vendor_rules (rules : List DynRule) : List DynRule :=
  Py.stableSort vendor_rule_sort_le rules

/-- The `TagResult` built for one matching vendor+account rule inside
`apply_dynamic_rules`: confidence 0.70 for a bare vendor-only rule, 0.99 with
any disambiguator; manual review iff confidence < 0.85. -/
def vendor_rule_result (farms_config : FarmTagger.FarmsConfig) (rule : DynRule)
    (farm_id : String) : FarmTagger.TagResult :=
  let farm_name := farm_name_for farms_config farm_id
  let is_vendor_fallback :=
    !(rule.service_address_contains ≠ [] || rule.keywords_any ≠ [])
  let confidence : Rat := if is_vendor_fallback then 7/10 else 99/100
  let candidate : FarmTagger.TagCandidate :=
    { farm_id := farm_id, farm_name := farm_name,
      score := ((rule.priority.getD 100 : Int) : Rat),
      matched_rules := ["dynamic_rule"] }
  { top_candidate := some candidate, all_candidates := [candidate],
    confidence := confidence,
    needs_manual_review := decide (confidence < 17/20),
    reason := "Dynamic rule match (" ++ opt_repr rule.rule_id ++ ")" }

/-- The vendor+account stage of `apply_dynamic_rules`: scan the ordered rules,
first match (with a non-empty farm id) wins. -/
def scan_vendor_rules (farms_config : FarmTagger.FarmsConfig)
    (document_lower document_identifier : String) :
    List DynRule → Option FarmTagger.TagResult
  | [] => none
  | rule :: rest =>
    if matches_rule rule document_lower document_identifier farms_config then
      let farm_id := Py.strip (rule.farm_id.getD "")
      if farm_id = "" then
        scan_vendor_rules farms_config document_lower document_identifier rest
      else some (vendor_rule_result farms_config rule farm_id)
    else scan_vendor_rules farms_config document_lower document_identifier rest

/-- The `bill_to_contains_all` stage: all tokens must appear in the normalized
text; the first rule with a non-empty farm id wins at confidence 0.99. -/
def scan_bill_to_contains_all (farms_config : FarmTagger.FarmsConfig)
    (document_lower : String) : List DynRule → Option FarmTagger.TagResult
  | [] => none
  | rule :: rest =>
    if rule.tokens = [] then
      scan_bill_to_contains_all farms_config document_lower rest
    else if rule.tokens.all (fun t =>
        if t = "" then true else Py.inStr (Py.lower (Py.strip t)) document_lower) then
      let farm_id := Py.strip ((Py.pyOr rule.farm_key rule.farm_id).getD "")
      if farm_id = "" then
        scan_bill_to_contains_all farms_config document_lower rest
      else
        let candidate : FarmTagger.TagCandidate :=
          { farm_id := farm_id, farm_name := farm_name_for farms_config farm_id,
            score := 99/100, matched_rules := ["bill_to_contains_all"] }
        some { top_candidate := some candidate, all_candidates := [candidate],
               confidence := 99/100, needs_manual_review := false,
               reason := "Bill-to contains all: " ++ String.intercalate ", " rule.tokens }
    else scan_bill_to_contains_all farms_config document_lower rest

/-- The `bill_to_match` stage: one normalized substring must appear. -/
def scan_bill_to_match (farms_config : FarmTagger.FarmsConfig)
    (document_lower : String) : List DynRule → Option FarmTagger.TagResult
  | [] => none
  | rule :: rest =>
    let match_text := Py.strip ((Py.pyOr rule.match_text (some "")).getD "")
    if match_text = "" then scan_bill_to_match farms_config document_lower rest
    else
      let needle := normalize_text (some match_text)
      if needle ≠ "" && Py.inStr needle document_lower then
        let farm_id := Py.strip ((Py.pyOr rule.farm_key rule.farm_id).getD "")
        if farm_id = "" then scan_bill_to_match farms_config document_lower rest
        else
          let candidate : FarmTagger.TagCandidate :=
            { farm_id := farm_id, farm_name := farm_name_for farms_config farm_id,
              score := 99/100, matched_rules := ["bill_to_match"] }
          some { top_candidate := some candidate, all_candidates := [candidate],
                 confidence := 99/100, needs_manual_review := false,
                 reason := "Bill-to match: " ++ match_text }
      else scan_bill_to_match farms_config document_lower rest

/-- The vendor+account candidate set of `apply_dynamic_rules`: every rule that is
not one of the two bill-to types and has a non-empty normalized vendor key and
account number. -/
def vendor_rule_candidates (rules : List DynRule) : List DynRule :=
  rules.filter (fun r =>
    !(r.ruleType = some "bill_to_contains_all" || r.ruleType = some "bill_to_match")
      && normalize_identifier r.vendor_key ≠ ""
      && normalize_identifier r.account_number ≠ "")

/-- `apply_dynamic_rules` (src/core/rules.py): the tiered dynamic rule engine.
Precedence: bill-to-contains-all, bill-to-match, then ordered vendor+account
rules; `None` when no rule matches. -/
def apply_dynamic_rules (vision_text : String) (rules : List DynRule)
    (farms_config : FarmTagger.FarmsConfig) : Option FarmTagger.TagResult :=
  if rules = [] then none
  else
    let document_lower := normalize_text (some vision_text)
    let document_identifier := normalize_identifier (some vision_text)
    let bill_to_contains_all_rules :=
      rules.filter (fun r => r.ruleType = some "bill_to_contains_all")
    match scan_bill_to_contains_all farms_config document_lower bill_to_contains_all_rules with
    | some result => some result
    | none =>
      let bill_to_rules := rules.filter (fun r => r.ruleType = some "bill_to_match")
      match scan_bill_to_match farms_config document_lower bill_to_rules with
      | some result => some result
      | none =>
        let ordered := order_vendor_rules (vendor_rule_candidates rules)
        scan_vendor_rules farms_config document_lower document_identifier ordered

/-- `_scan_farms_config_mappings` (src/core/rules.py, identical in src/rules.py). -/
def scan_farms_config_mappings (normalized_vendor normalized_account : String)
    (farms_config : FarmTagger.FarmsConfig) : List String :=
  farms_config.farms.flatMap (fun farm =>
    let fid := Py.strip farm.id
    farm.vendors.filterMap (fun vc =>
      if normalize_identifier (some vc.1) ≠ normalized_vendor then none
      else
        let values := vc.2.identifiers ++ vc.2.account_numbers ++ vc.2.meter_numbers
          ++ vc.2.policy_numbers ++ vc.2.loan_numbers ++ vc.2.order_numbers
          ++ vc.2.customer_numbers
        let normalized_values := values.map (fun v => normalize_identifier (some v))
        if normalized_values.contains normalized_account && fid ≠ "" then some fid
        else none))

/-- `_scan_dynamic_rule_mappings` (src/core/rules.py, identical in src/rules.py). -/
def scan_dynamic_rule_mappings (normalized_vendor normalized_account : String)
    (dynamic_rules_payload : RulesPayload) : List String :=
  dynamic_rules_payload.rules.filterMap (fun rule =>
    if normalize_identifier rule.vendor_key ≠ normalized_vendor then none
    else if normalize_identifier rule.account_number ≠ normalized_account then none
    else
      let fid := Py.strip (rule.farm_id.getD "")
      if fid ≠ "" then some fid else none)

/-- `_scan_transaction_mappings` (src/core/rules.py, identical in src/rules.py). -/
def scan_transaction_mappings (normalized_vendor normalized_account : String)
    (transactions_rows : List Ledger.TxnRow) : List String :=
  transactions_rows.filterMap (fun row =>
    if row.duplicate_detected then none
    else if normalize_identifier row.vendor_key ≠ normalized_vendor then none
    else if normalize_identifier row.account_number ≠ normalized_account then none
    else
      let fid := Py.strip (row.farm_id.getD "")
      if fid ≠ "" then some fid else none)

/-- `check_account_collision` (src/core/rules.py, identical in src/rules.py):
true iff the normalized vendor+account pair maps to more than one distinct farm
id across static config, the dynamic rule set and historical non-duplicate
transactions. -/
def check_account_collision (vendor_key account_number : String)
    (farms_config : FarmTagger.FarmsConfig) (dynamic_rules_payload : RulesPayload)
    (transactions_rows : List Ledger.TxnRow) : Bool :=
  let normalized_vendor := normalize_identifier (some vendor_key)
  let normalized_account := normalize_identifier (some account_number)
  if normalized_vendor = "" || normalized_account = "" then false
  else
    let farm_ids :=
      (scan_farms_config_mappings normalized_vendor normalized_account farms_config
        ++ scan_dynamic_rule_mappings normalized_vendor normalized_account dynamic_rules_payload
        ++ scan_transaction_mappings normalized_vendor normalized_account transactions_rows).eraseDups
    decide (farm_ids.length > 1)

end CoreRules

namespace ReviewManual

/-- Accumulator for line splitting. -/
def splitLinesAux (cur : List Char) : List Char → List (List Char)
  | [] => [cur.reverse]
  | '\r' :: '\n' :: rest => cur.reverse :: splitLinesAux [] rest
  | '\r' :: rest => cur.reverse :: splitLinesAux [] rest
  | '\n' :: rest => cur.reverse :: splitLinesAux [] rest
  | c :: rest => splitLinesAux (c :: cur) rest

/-- Python `str.splitlines()` (common line breaks; no trailing empty line). -/
def splitlines (s : String) : List String :=
  if s = "" then []
  else
    let ps := (splitLinesAux [] s.toList).map (fun l => (⟨l⟩ : String))
    if ps.getLast? = some "" then ps.dropLast else ps

/-- Maximal runs of characters satisfying `p`. -/
def runsByAux (p : Char → Bool) (cur : List Char) : List Char → List (List Char)
  | [] => if cur = [] then [] else [cur.reverse]
  | c :: rest =>
    if p c then runsByAux p (c :: cur) rest
    else if cur = [] then runsByAux p [] rest
    else cur.reverse :: runsByAux p [] rest

/-- Maximal runs of characters satisfying `p`, as strings. -/
def runsBy (p : Char → Bool) (l : List Char) : List String :=
  (runsByAux p [] l).map (fun r => (⟨r⟩ : String))

/-- The class `[a-z0-9]`. -/
def isLowerAlnum (c : Char) : Bool :=
  ('a' ≤ c && c ≤ 'z') || c.isDigit

/-- The class `[a-z0-9\-]` of the account-number patterns. -/
def acctChar (c : Char) : Bool := isLowerAlnum c || c = '-'

/-- The tail `\s*([a-z0-9\-]{4,})` of the account-number patterns: skip
whitespace, take the maximal run of account characters, succeed iff it has at
least 4 characters. -/
def acctGroupTry (s : List Char) : Option String :=
  let s4 := s.dropWhile Py.isSpaceChar
  let run := s4.takeWhile acctChar
  if run.length ≥ 4 then some ⟨run⟩ else none

/-- The tail `\s*[:\-]?\s*([a-z0-9\-]{4,})`: after skipping whitespace, try
consuming one `:` or `-` (with backtracking to not consuming it, as the
group class also contains `-`). -/
def acctAfterAlt (s : List Char) : Option String :=
  let s2 := s.dropWhile Py.isSpaceChar
  match s2 with
  | c :: rest =>
    if c = ':' || c = '-' then
      match acctGroupTry rest with
      | some r => some r
      | none => acctGroupTry s2
    else acctGroupTry s2
  | [] => acctGroupTry s2

/-- The tail of `account\s*(?:no|number|#)?\s*[:\-]?\s*([a-z0-9\-]{4,})` after
the literal: regex alternation tried in source order with backtracking. -/
def acctMatchTail (l : List Char) : Option String :=
  let s1 := l.dropWhile Py.isSpaceChar
  let tryAlt := fun (a : List Char) =>
    if a.isPrefixOf s1 then acctAfterAlt (s1.drop a.length) else none
  match tryAlt ['n', 'o'] with
  | some r => some r
  | none =>
    match tryAlt ['n', 'u', 'm', 'b', 'e', 'r'] with
    | some r => some r
    | none =>
      match tryAlt ['#'] with
      | some r => some r
      | none => acctAfterAlt s1

/-- `re.search` for a pattern `lit` followed by `tail`: leftmost position wins. -/
def searchLitTail (lit : List Char) (tail : List Char → Option String) :
    List Char → Option String
  | [] => none
  | l@(_ :: t) =>
    match (if lit.isPrefixOf l then tail (l.drop lit.length) else none) with
    | some r => some r
    | none => searchLitTail lit tail t

/-- `extract_account_number` (src/review_manual.py): try
`account\s*(?:no|number|#)?\s*[:\-]?\s*([a-z0-9\-]{4,})` over the normalized
text, then `acct\s*[:\-]?\s*([a-z0-9\-]{4,})`; the matched group is stripped. -/
def extract_account_number (text : String) : Option String :=
  let lower := CoreRules.normalize_text (some text)
  match searchLitTail ['a', 'c', 'c', 'o', 'u', 'n', 't'] acctMatchTail lower.toList with
  | some r => some (Py.strip r)
  | none =>
    match searchLitTail ['a', 'c', 'c', 't'] acctAfterAlt lower.toList with
    | some r => some (Py.strip r)
    | none => none

/-- The street-word alternatives of `extract_service_address_hint`. -/
def streetWords : List String := ["rd", "road", "street", "st", "ave", "blvd", "ca"]

/-- `extract_service_address_hint` (src/review_manual.py): keep non-empty lines
mentioning "service for", "po box", or a street word with `\b` boundaries
(modelled as a maximal `\w`-run equal to the word); join the first two with
", ". -/
def extract_service_address_hint (text : String) : Option String :=
  let lines := ((splitlines text).map Py.strip).filter (fun l => l ≠ "")
  let candidates := lines.filter (fun line =>
    let lowered := CoreRules.normalize_text (some line)
    Py.inStr "service for" lowered || Py.inStr "po box" lowered
      || (runsBy Py.isWordChar lowered.toList).any (fun run => streetWords.contains run))
  if candidates = [] then none
  else some (String.intercalate ", " (candidates.take 2))

/-- `re.split(r"[,;]", s)`: split keeping empty pieces. -/
def splitOnCommaSemiAux (cur : List Char) : List Char → List (List Char)
  | [] => [cur.reverse]
  | c :: rest =>
    if c = ',' || c = ';' then cur.reverse :: splitOnCommaSemiAux [] rest
    else splitOnCommaSemiAux (c :: cur) rest

/-- Append if absent (order-preserving dedup step). -/
def dedupAppend (out : List String) (x : String) : List String :=
  if out.contains x then out else out ++ [x]

/-- `extract_service_disambiguators` (src/review_manual.py): split the
normalized address on `,`/`;`, strip each non-empty segment, collapse inner
whitespace, drop segments shorter than 4 characters, dedupe, keep at most 3. -/
def extract_service_disambiguators (service_address : Option String) : List String :=
  if !Py.truthy service_address then []
  else
    let normalized := CoreRules.normalize_text service_address
    let tokens := ((splitOnCommaSemiAux [] normalized.toList).map
      (fun piece => Py.strip (⟨piece⟩ : String))).filter (fun seg => seg ≠ "")
    let out := tokens.foldl (fun out token =>
      let cleaned := Py.strip (Py.collapseWhitespace token)
      if cleaned.length < 4 then out else dedupAppend out cleaned) []
    out.take 3

/-- The generic stopwords of `extract_keyword_disambiguators`. -/
def keywordStopwords : List String := ["farm", "farms", "expenses", "ranch"]

/-- `extract_keyword_disambiguators` (src/review_manual.py): tokens of at least
4 chars (`[a-z0-9]{4,}` over the normalized farm name and id), minus stopwords,
that occur in the normalized OCR text; deduped, at most 3. -/
def extract_keyword_disambiguators (selected_farm_name selected_farm_id ocr_text : String) :
    List String :=
  let normalized_ocr := CoreRules.normalize_text (some ocr_text)
  let farm_tokens :=
    (runsBy isLowerAlnum (CoreRules.normalize_text (some selected_farm_name)).toList
      ++ runsBy isLowerAlnum (CoreRules.normalize_text (some selected_farm_id)).toList).filter
      (fun t => t.length ≥ 4)
  let keywords := farm_tokens.foldl (fun ks token =>
    if keywordStopwords.contains token then ks
    else if Py.inStr token normalized_ocr && !ks.contains token then ks ++ [token]
    else ks) []
  keywords.take 3

/-- Add `n` to a vendor count, preserving dict insertion order. -/
def addCount (acc : List (String × Nat)) (k : String) (n : Nat) : List (String × Nat) :=
  if acc.any (fun p => p.1 = k) then
    acc.map (fun p => if p.1 = k then (p.1, p.2 + n) else p)
  else acc ++ [(k, n)]

/-- `infer_vendor_key_from_text` (src/review_manual.py): count, per vendor key,
how many distinct configured terms (key, name, keywords; length ≥ 3) occur in
the normalized OCR text; a strict single winner is required (tie yields None). -/
def infer_vendor_key_from_text (ocr_text : String)
    (farms_config : FarmTagger.FarmsConfig) : Option String :=
  let lowered := CoreRules.normalize_text (some ocr_text)
  let scores := farms_config.farms.foldl (fun acc farm =>
    farm.vendors.foldl (fun acc2 vc =>
      let terms := [CoreRules.normalize_text (some vc.1), CoreRules.normalize_text vc.2.name]
        ++ vc.2.keywords.map (fun kw => CoreRules.normalize_text (some kw))
      let unique_terms := (terms.filter (fun t => t ≠ "" && t.length ≥ 3)).eraseDups
      let cnt := (unique_terms.filter (fun t => Py.inStr t lowered)).length
      if cnt = 0 then acc2 else addCount acc2 vc.1 cnt) acc) ([] : List (String × Nat))
  if scores = [] then none
  else
    let ranked := Py.stableSort (fun a b => decide (b.2 ≤ a.2)) scores
    match ranked with
    | r1 :: r2 :: _ => if r1.2 = r2.2 then none else some r1.1
    | [r1] => some r1.1
    | [] => none

/-- `propose_dynamic_rules` (src/review_manual.py): synthesize up to 3 dynamic
rule proposals for an accepted manual correction. `ocr_text` models the
`load_cached_ocr_text(script_dir, doc_id)` cache read. When collision detection
reports true, only proposals carrying a disambiguator are retained. -/
def propose_dynamic_rules (doc_id selected_farm_id selected_farm_name : String)
    (transaction_row : Ledger.TxnRow) (farms_config : FarmTagger.FarmsConfig)
    (dynamic_rules_payload : CoreRules.RulesPayload)
    (transactions_rows : List Ledger.TxnRow) (ocr_text : String) :
    List CoreRules.RulePayload :=
  let vendor_key := Py.pyOr transaction_row.vendor_key
    (infer_vendor_key_from_text ocr_text farms_config)
  let account_number := Py.pyOr transaction_row.account_number
    (extract_account_number ocr_text)
  let invoice_number := transaction_row.invoice_number
  let service_address := Py.pyOr transaction_row.service_address
    (extract_service_address_hint ocr_text)
  if !Py.truthy vendor_key || !Py.truthy account_number then []
  else
    let collision := CoreRules.check_account_collision (vendor_key.getD "")
      (account_number.getD "") farms_config dynamic_rules_payload transactions_rows
    let service_disambiguators := extract_service_disambiguators service_address
    let keyword_disambiguators :=
      extract_keyword_disambiguators selected_farm_name selected_farm_id ocr_text
    if collision && service_disambiguators = [] && keyword_disambiguators = [] then []
    else
      let base_payload : CoreRules.RulePayload :=
        { vendor_key := some (vendor_key.getD ""),
          account_number := some (account_number.getD ""),
          invoice_number := if Py.truthy invoice_number then invoice_number else none,
          farm_id := some selected_farm_id,
          priority := some 100,
          created_at := some CoreRules.now_sentinel,
          evidence := [("doc_id", some doc_id),
                       ("content_fingerprint", transaction_row.content_fingerprint),
                       ("invoice_key", transaction_row.invoice_key)] }
      let proposals :=
        (if service_disambiguators ≠ [] then
          [{ base_payload with
              service_address_contains := service_disambiguators.take 2,
              keywords_any := [] }]
         else [])
        ++ (if keyword_disambiguators ≠ [] then
          [{ base_payload with
              service_address_contains := [],
              keywords_any := keyword_disambiguators.take 3 }]
         else [])
      let guarded :=
        if collision then
          proposals.filter (fun p =>
            p.service_address_contains ≠ [] || p.keywords_any ≠ [])
        else proposals
      guarded.take 3

end ReviewManual

namespace PyDate

/-- Numeric value of a digit character. -/
def digitVal (c : Char) : Nat := c.toNat - 48

/-- `%Y` of `strptime`: exactly four digits. -/
def parseYear4 : List Char → Option (Nat × List Char)
  | a :: b :: c :: d :: rest =>
    if a.isDigit && b.isDigit && c.isDigit && d.isDigit then
      some (1000 * digitVal a + 100 * digitVal b + 10 * digitVal c + digitVal d, rest)
    else none
  | _ => none

/-- `%m`/`%d` of `strptime`: a two-digit value in `1..maxv`, else a single
digit `1..9` (mirroring the regex alternations `1[0-2]|0[1-9]|[1-9]` and
`3[01]|[12]\d|0[1-9]|[1-9]`). -/
def parseNum2 (maxv : Nat) : List Char → Option (Nat × List Char)
  | a :: b :: rest =>
    if a.isDigit && b.isDigit then
      let v := 10 * digitVal a + digitVal b
      if 1 ≤ v && v ≤ maxv then some (v, rest)
      else if 1 ≤ digitVal a && digitVal a ≤ 9 then some (digitVal a, b :: rest)
      else none
    else if a.isDigit && 1 ≤ digitVal a && digitVal a ≤ 9 then some (digitVal a, b :: rest)
    else none
  | [a] => if a.isDigit && 1 ≤ digitVal a && digitVal a ≤ 9 then some (digitVal a, []) else none
  | [] => none

/-- A literal character of the format. -/
def expectChar (c : Char) : List Char → Option (List Char)
  | x :: rest => if x = c then some rest else none
  | [] => none

/-- Whitespace in a `strptime` format matches `\s+`. -/
def expectWs : List Char → Option (List Char)
  | x :: rest => if Py.isSpaceChar x then some (rest.dropWhile Py.isSpaceChar) else none
  | [] => none

/-- Full month names (C locale), lowercased; `%B` matches case-insensitively. -/
def monthFull : List String :=
  ["january", "february", "march", "april", "may", "june",
   "july", "august", "september", "october", "november", "december"]

/-- Abbreviated month names (C locale), lowercased, for `%b`. -/
def monthAbbr : List String :=
  ["jan", "feb", "mar", "apr", "may", "jun", "jul", "aug", "sep", "oct", "nov", "dec"]

/-- Match a month name from the list (1-based month number). No name in either
list is a prefix of another in the same list, so first match is unambiguous. -/
def parseMonthName (names : List String) (l : List Char) : Option (Nat × List Char) :=
  let rec go (idx : Nat) : List String → Option (Nat × List Char)
    | [] => none
    | n :: rest =>
      if n.toList.isPrefixOf l then some (idx, l.drop n.length)
      else go (idx + 1) rest
  go 1 names

/-- Gregorian leap year. -/
def isLeapYear (y : Nat) : Bool := y % 4 = 0 && (y % 100 ≠ 0 || y % 400 = 0)

/-- Days in a month. -/
def daysInMonth (y m : Nat) : Nat :=
  if m = 2 then (if isLeapYear y then 29 else 28)
  else if m = 4 || m = 6 || m = 9 || m = 11 then 30
  else 31

/-- `datetime` constructor validity (MINYEAR/MAXYEAR and real calendar days). -/
def validYMD (y m d : Nat) : Bool :=
  1 ≤ y && y ≤ 9999 && 1 ≤ m && m ≤ 12 && 1 ≤ d && d ≤ daysInMonth y m

/-- `strptime(raw, "%Y-%m-%d")` shape (separator parameterized for `%m-%d-%Y`
style formats sharing the dash). -/
def matchYMD (sep : Char) (l : List Char) : Option (Nat × Nat × Nat) := do
  let (y, r1) ← parseYear4 l
  let r2 ← expectChar sep r1
  let (m, r3) ← parseNum2 12 r2
  let r4 ← expectChar sep r3
  let (d, r5) ← parseNum2 31 r4
  if r5 = [] then some (y, m, d) else none

/-- `strptime(raw, "%m/%d/%Y")` shape with a parameterized separator. -/
def matchMDY (sep : Char) (l : List Char) : Option (Nat × Nat × Nat) := do
  let (m, r1) ← parseNum2 12 l
  let r2 ← expectChar sep r1
  let (d, r3) ← parseNum2 31 r2
  let r4 ← expectChar sep r3
  let (y, r5) ← parseYear4 r4
  if r5 = [] then some (y, m, d) else none

/-- `strptime(raw, "%d/%m/%Y")` shape. -/
def matchDMY (sep : Char) (l : List Char) : Option (Nat × Nat × Nat) := do
  let (d, r1) ← parseNum2 31 l
  let r2 ← expectChar sep r1
  let (m, r3) ← parseNum2 12 r2
  let r4 ← expectChar sep r3
  let (y, r5) ← parseYear4 r4
  if r5 = [] then some (y, m, d) else none

/-- `strptime(raw, "%B %d, %Y")` / `"%b %d, %Y"` shape over the lowered input. -/
def matchBDY (names : List String) (l : List Char) : Option (Nat × Nat × Nat) := do
  let (m, r1) ← parseMonthName names l
  let r2 ← expectWs r1
  let (d, r3) ← parseNum2 31 r2
  let r4 ← expectChar ',' r3
  let r5 ← expectWs r4
  let (y, r6) ← parseYear4 r5
  if r6 = [] then some (y, m, d) else none

/-- Whether a matcher yields a calendar-valid date (`strptime` succeeds without
remainder and the `datetime` constructor accepts the fields). -/
def dateOk (matcher : List Char → Option (Nat × Nat × Nat)) (l : List Char) : Bool :=
  match matcher l with
  | some (y, m, d) => validYMD y m d
  | none => false

/-- Zero-padded two digits. -/
def pad2 (n : Nat) : String := if n < 10 then "0" ++ toString n else toString n

/-- Zero-padded four digits. -/
def pad4 (n : Nat) : String :=
  if n < 10 then "000" ++ toString n
  else if n < 100 then "00" ++ toString n
  else if n < 1000 then "0" ++ toString n
  else toString n

/-- `date(y, m, d).isoformat()`. -/
def isoformat (y m d : Nat) : String := pad4 y ++ "-" ++ pad2 m ++ "-" ++ pad2 d

end PyDate

namespace Validator

/-- The raw `total_amount` value handed to `normalize_total_to_cents`:
a JSON number or a string. -/
inductive TotalRaw where
  | num (q : Rat)
  | str (s : String)
deriving Repr, DecidableEq

/-- Digits to a natural number. -/
def digitsToNat (l : List Char) : Nat :=
  l.foldl (fun acc c => 10 * acc + PyDate.digitVal c) 0

/-- Unsigned decimal literal `digits[.digits]` (at least one digit overall),
returning mantissa digits value, fraction length and the remainder. -/
def parseUnsignedDec (l : List Char) : Option (Nat × Nat × List Char) :=
  let ip := l.takeWhile Char.isDigit
  let r1 := l.drop ip.length
  match r1 with
  | '.' :: r2 =>
    let fp := r2.takeWhile Char.isDigit
    if ip = [] && fp = [] then none
    else some (digitsToNat (ip ++ fp), fp.length, r2.drop fp.length)
  | _ =>
    if ip = [] then none else some (digitsToNat ip, 0, r1)

/-- Finite `Decimal(s)` literals: optional sign, decimal digits with optional
fraction, optional exponent. (The special values NaN/Infinity, which the
pipeline never feeds it, are treated as parse failures.) -/
def parseDecimal (s : String) : Option Rat :=
  let l := s.toList
  let signSplit : Int × List Char :=
    match l with
    | '+' :: t => (1, t)
    | '-' :: t => (-1, t)
    | _ => (1, l)
  match parseUnsignedDec signSplit.2 with
  | none => none
  | some (mant, fracLen, rest) =>
    let base : Rat := ((signSplit.1 * mant : Int) : Rat) / ((10 : Rat) ^ fracLen)
    match rest with
    | [] => some base
    | e :: r2 =>
      if e = 'e' || e = 'E' then
        let expSplit : Int × List Char :=
          match r2 with
          | '+' :: t => (1, t)
          | '-' :: t => (-1, t)
          | _ => (1, r2)
        let ds := expSplit.2.takeWhile Char.isDigit
        if ds = [] || expSplit.2.drop ds.length ≠ [] then none
        else some (base * (10 : Rat) ^ (expSplit.1 * (digitsToNat ds : Int)))
      else none

/-- Decimal `ROUND_HALF_UP`: round to nearest, ties away from zero. -/
def roundHalfUp (q : Rat) : Int :=
  if q ≥ 0 then ⌊q + 1/2⌋ else -(⌊-q + 1/2⌋)

/-- The currency symbols stripped by `normalize_total_to_cents`, in source order. -/
def currencySymbols : List String := ["$", "€", "£", "¥", "USD", "EUR", "GBP"]

/-- `normalize_total_to_cents` (src/core/validator.py): exact decimal conversion
of a raw total to integer cents — strip whitespace, remove commas, strip
currency symbols, parentheses (or a leading minus) mean negative, parse as
`Decimal`, multiply by 100 and round half-up. Errors model the `ValueError`s. -/
def normalize_total_to_cents (raw_total : Option TotalRaw) : Except String Int :=
  match raw_total with
  | none => .error "total_amount cannot be null"
  | some (.num q) =>
    .ok (roundHalfUp (q * 100))
  | some (.str s0) =>
    let s := Py.strip s0
    if s = "" then .error "total_amount cannot be empty"
    else
      let c0 := Py.strip (Py.replace s "," "")
      let cleaned := currencySymbols.foldl (fun c sym => Py.strip (Py.replace c sym "")) c0
      let negSplit : Bool × String :=
        if Py.startsWith cleaned "(" && Py.endsWith cleaned ")" then
          (true, Py.strip ((cleaned.drop 1).dropRight 1))
        else if Py.startsWith cleaned "-" then (true, Py.strip (cleaned.drop 1))
        else (false, cleaned)
      if negSplit.2 = "" then .error "total_amount cannot be empty after cleanup"
      else
        match parseDecimal negSplit.2 with
        | none => .error "invalid total_amount"
        | some dec0 =>
          let dec := if negSplit.1 then -dec0 else dec0
          .ok (roundHalfUp (dec * 100))

/-- The payload seen by `validate_invoice_payload` (required fields only;
optional fields are not consulted by it). -/
structure ValidatorPayload where
  vendor_name : Option String := none
  invoice_number : Option String := none
  invoice_date : Option String := none
  total_amount : Option TotalRaw := none
deriving Repr, DecidableEq

/-- The required-field failure test: absent, `None`, or a blank string. -/
def strFieldMissing (o : Option String) : Bool :=
  match o with
  | none => true
  | some s => Py.strip s = ""

/-- Required-field failure test for `total_amount` (numbers always pass). -/
def totalFieldMissing (o : Option TotalRaw) : Bool :=
  match o with
  | none => true
  | some (.str s) => Py.strip s = ""
  | some (.num _) => false

/-- `_DATE_FORMATS` matching: `%Y-%m-%d`, `%m/%d/%Y`, `%d/%m/%Y`, `%B %d, %Y`,
`%b %d, %Y`, each with `strptime` full-consumption and calendar validity. -/
def matchesAnyDateFormat (raw : String) : Bool :=
  let l := (Py.lower raw).toList
  PyDate.dateOk (PyDate.matchYMD '-') l
    || PyDate.dateOk (PyDate.matchMDY '/') l
    || PyDate.dateOk (PyDate.matchDMY '/') l
    || PyDate.dateOk (PyDate.matchBDY PyDate.monthFull) l
    || PyDate.dateOk (PyDate.matchBDY PyDate.monthAbbr) l

/-- `validate_invoice_payload` (src/core/validator.py): required fields in
order, then date format, then amount normalization, then the zero check.
Returns `(valid, failure_reason)`. -/
def validate_invoice_payload (payload : ValidatorPayload) : Bool × Option String :=
  if strFieldMissing payload.vendor_name then (false, some "missing_required_field")
  else if strFieldMissing payload.invoice_number then (false, some "missing_required_field")
  else if strFieldMissing payload.invoice_date then (false, some "missing_required_field")
  else if totalFieldMissing payload.total_amount then (false, some "missing_required_field")
  else
    let raw_date := Py.strip (payload.invoice_date.getD "")
    if !matchesAnyDateFormat raw_date then (false, some "invalid_date_format")
    else
      match normalize_total_to_cents payload.total_amount with
      | .error _ => (false, some "invalid_amount")
      | .ok cents => if cents = 0 then (false, some "zero_amount") else (true, none)

end Validator

namespace CliMain

/-- One `strptime` try of `normalize_date_iso`, with `date().isoformat()`. -/
def try_date_iso (matcher : List Char → Option (Nat × Nat × Nat)) (l : List Char) :
    Option String :=
  match matcher l with
  | some (y, m, d) => if PyDate.validYMD y m d then some (PyDate.isoformat y m d) else none
  | none => none

/-- `normalize_date_iso` (src/cli/main.py): normalize to `YYYY-MM-DD` via the
formats `%Y-%m-%d`, `%m/%d/%Y`, `%m-%d-%Y` (first success), else `None`. -/
def normalize_date_iso (value : Option String) : Option String :=
  let raw := Py.strip (value.getD "")
  if raw = "" then none
  else
    let l := raw.toList
    match try_date_iso (PyDate.matchYMD '-') l with
    | some s => some s
    | none =>
      match try_date_iso (PyDate.matchMDY '/') l with
      | some s => some s
      | none => try_date_iso (PyDate.matchMDY '-') l

/-- `resolve_vendor_key` (src/cli/main.py): the first configured vendor of the
farm whose display name occurs (case-insensitively) inside the parsed vendor
name. (The `not farms_config` guard is unreachable in the model: the config
dict always carries the `farms` key and a non-empty dict is truthy.) -/
def resolve_vendor_key (farm_id : String) (vendor_name : Option String)
    (farms_config : FarmTagger.FarmsConfig) : Option String :=
  if farm_id = "" || !Py.truthy vendor_name then none
  else
    match farms_config.farms.find? (fun f => f.id = farm_id) with
    | none => none
    | some farm =>
      let vendor_name_lower := Py.lower (vendor_name.getD "")
      farm.vendors.findSome? (fun vc =>
        let v_name := Py.lower ((Py.pyOr vc.2.name (some "")).getD "")
        if v_name ≠ "" && Py.inStr v_name vendor_name_lower then some vc.1 else none)

end CliMain

namespace Pipeline

/-- The canonical transaction record (`CANONICAL_TRANSACTION_SCHEMA` of
src/cli/main.py), as built by `create_transaction_record`. `processed_at` and
`line_items` are omitted (wall-clock and a side table no claim inspects);
`total_cents` models the ad-hoc `record["total_cents"]` set on some paths. -/
structure TxnRecord where
  doc_id : Option String := none
  farm_id : Option String := none
  farm_name : Option String := none
  vendor_key : Option String := none
  vendor_name : Option String := none
  invoice_number : Option String := none
  invoice_date : Option String := none
  due_date : Option String := none
  total_amount : Option Rat := none
  service_address : Option String := none
  account_number : Option String := none
  raw_text_hash : Option String := none
  confidence : Rat := 0
  needs_manual_review : Bool := false
  manual_override : Bool := false
  error : Option String := none
  content_fingerprint : String := ""
  invoice_key : Option String := none
  duplicate_detected : Bool := false
  duplicate_reason : Option String := none
  duplicate_of : Option String := none
  total_cents : Option Int := none
deriving Repr, DecidableEq

/-- `create_transaction_record` (src/cli/main.py): the single builder for all
execution paths. -/
def create_transaction_record (doc_id vision_text content_fingerprint : String)
    (farm_tag_result : Option FarmTagger.TagResult)
    (parsed_invoice : Option CliMain.ParsedInvoice)
    (vendor_key : Option String) (error : Option String)
    (manual_override : Bool) : TxnRecord :=
  let base : TxnRecord :=
    { doc_id := some doc_id,
      raw_text_hash := some (CliMain.hash_text vision_text),
      error := error,
      manual_override := manual_override,
      content_fingerprint := content_fingerprint }
  let withFarm :=
    match farm_tag_result with
    | some tr =>
      match tr.top_candidate with
      | some top =>
        { base with farm_id := some top.farm_id, farm_name := some top.farm_name,
                    confidence := tr.confidence,
                    needs_manual_review := tr.needs_manual_review }
      | none => { base with confidence := 0, needs_manual_review := true }
    | none => { base with confidence := 0, needs_manual_review := true }
  match parsed_invoice with
  | some p =>
    { withFarm with
        vendor_name := p.vendor_name, invoice_number := p.invoice_number,
        invoice_date := p.invoice_date, due_date := p.due_date,
        total_amount := p.total_amount, service_address := p.service_address,
        account_number := p.account_number,
        invoice_key := CliMain.compute_invoice_key vendor_key (some p),
        vendor_key := vendor_key }
  | none => { withFarm with invoice_key := none, vendor_key := vendor_key }

/-- `create_duplicate_stub_record` (src/cli/main.py): the audit stub persisted
for an invoice-key duplicate. -/
def create_duplicate_stub_record (doc_id content_fingerprint : String)
    (farm_tag_result : FarmTagger.TagResult)
    (parsed_invoice : Option CliMain.ParsedInvoice)
    (vendor_key : Option String) (invoice_key : Option String)
    (duplicate_of_doc_id : Option String) : TxnRecord :=
  let base : TxnRecord :=
    { doc_id := some doc_id,
      content_fingerprint := content_fingerprint,
      invoice_key := invoice_key,
      duplicate_detected := true,
      duplicate_reason := some "invoice_key",
      duplicate_of := duplicate_of_doc_id,
      vendor_key := vendor_key,
      vendor_name := match parsed_invoice with
        | some p => p.vendor_name
        | none => none,
      needs_manual_review := false,
      manual_override := false,
      error := none }
  match farm_tag_result.top_candidate with
  | some top =>
    { base with farm_id := some top.farm_id, farm_name := some top.farm_name,
                confidence := farm_tag_result.confidence }
  | none => base

/-- `insert_document` (src/cli/main.py) over the explicit ledger state.
Modelled from the spec: `schema.sql` is not under `src/`; per the spec the
`documents` table has a uniqueness constraint on `content_fingerprint`
("row storage with a uniqueness constraint on (content fingerprint) for
documents"; SQL `UNIQUE` lets multiple NULLs coexist). A violation makes the
function return `false` with the state unchanged. -/
def insert_document (db : Ledger.LedgerDB) (row : Ledger.DocRow) :
    Bool × Ledger.LedgerDB :=
  if row.content_fingerprint.isSome
      && db.documents.any (fun d => d.content_fingerprint = row.content_fingerprint) then
    (false, db)
  else
    (true, { db with documents := db.documents ++ [row] })

/-- The transaction row `insert_transaction_record` (src/cli/main.py) builds
from the record and its flag arguments. -/
def txn_row_of (record : TxnRecord)
    (status : String) (error_reason : Option String)
    (duplicate_detected : Bool) (duplicate_reason : Option String)
    (duplicate_of_doc_id : Option String)
    (parse_status : String) (parse_failure_reason : Option String) :
    Ledger.TxnRow :=
  { doc_id := record.doc_id,
      farm_id := record.farm_id,
      farm_name := record.farm_name,
      vendor_key := record.vendor_key,
      vendor_name := record.vendor_name,
      invoice_number := record.invoice_number,
      invoice_date := CliMain.normalize_date_iso record.invoice_date,
      due_date := CliMain.normalize_date_iso record.due_date,
      total_cents := record.total_cents.getD (CliMain.to_cents record.total_amount),
      service_address := record.service_address,
      account_number := record.account_number,
      confidence := record.confidence,
      needs_manual_review := record.needs_manual_review,
      manual_override := record.manual_override,
      status := status,
      error_reason := Py.pyOr error_reason record.error,
      content_fingerprint := some record.content_fingerprint,
      invoice_key := record.invoice_key,
      duplicate_detected := duplicate_detected,
      duplicate_reason := duplicate_reason,
      duplicate_of_doc_id := duplicate_of_doc_id,
      parse_status := parse_status,
      parse_failure_reason := parse_failure_reason }

/-- `insert_transaction_record` (src/cli/main.py) over the explicit ledger
state. Modelled from the spec: `schema.sql` is not under `src/`; per the spec
non-duplicate transactions carry a uniqueness constraint on `invoice_key`
(the partial unique index `idx_transactions_invoice_key_original` whose
violation src/cli/main.py catches); a violation returns `false` with the state
unchanged. -/
def insert_transaction_record (db : Ledger.LedgerDB) (record : TxnRecord)
    (status : String) (error_reason : Option String)
    (duplicate_detected : Bool) (duplicate_reason : Option String)
    (duplicate_of_doc_id : Option String)
    (parse_status : String) (parse_failure_reason : Option String) :
    Bool × Ledger.LedgerDB :=
  let row : Ledger.TxnRow := txn_row_of record status error_reason duplicate_detected
    duplicate_reason duplicate_of_doc_id parse_status parse_failure_reason
  if row.invoice_key.isSome && !row.duplicate_detected
      && db.transactions.any (fun t => !t.duplicate_detected && t.invoice_key = row.invoice_key) then
    (false, db)
  else
    (true, { db with transactions := db.transactions ++ [row] })

/-- The structured outcome dict returned by `process_single_invoice`. -/
structure Outcome where
  status : String
  reason : Option String := none
  confidence : Option Rat := none
deriving Repr, DecidableEq

/-- `validate_invoice_payload` receives the parsed payload; `total_amount` is a
number (or `None`) after `_normalize_structured_invoice`. -/
def to_validator_payload (p : CliMain.ParsedInvoice) : Validator.ValidatorPayload :=
  { vendor_name := p.vendor_name, invoice_number := p.invoice_number,
    invoice_date := p.invoice_date,
    total_amount := p.total_amount.map Validator.TotalRaw.num }

/-- `record["total_cents"] = normalize_total_to_cents(invoice_data["total_amount"])`:
for a payload that passed validation the conversion cannot fail; the error arm
is unreachable there. -/
def total_cents_of (p : CliMain.ParsedInvoice) : Int :=
  match Validator.normalize_total_to_cents (p.total_amount.map Validator.TotalRaw.num) with
  | .ok c => c
  | .error _ => 0

/-- Outcome of the parse-then-validate stage: an error message with parse
status and failure reason, or the validated payload. -/
def parse_stage (parse_outcome : Except String CliMain.ParsedInvoice) :
    Except (String × String × String) CliMain.ParsedInvoice :=
  match parse_outcome with
  | .error e => .error ("llm_parsing_failed: " ++ e, "invalid_json", "invalid_json")
  | .ok payload =>
    let vr := Validator.validate_invoice_payload (to_validator_payload payload)
    if vr.1 then .ok payload
    else
      .error ("validation_failed: " ++ (vr.2.getD ""), "validation_failed",
        (Py.pyOr vr.2 (some "validation_failed")).getD "")

/-- `process_single_invoice` (src/cli/main.py) over the explicit ledger state.
The external collaborators are passed in as their outcomes: `path_result`
models `_resolve_and_validate_pdf_path` (resolved path or caught error),
`extraction` models `extract_invoice_text_with_vision`, and `parse_outcome`
models `parse_invoice_with_llm` (an `LLMParseError` message or the normalized
payload). The audit side tables (tagging events, review queue, line items,
vendors) and the saved JSON file are omitted; the `farm_tagging_failed` catch
arm is unreachable for the pure tagger model. An integrity violation on a path
that does not catch it (an uncaught exception in Python) is returned as status
`"unhandled_integrity_error"` with the transaction not persisted. -/
def process_single_invoice (doc_id file_name pdf_path : String)
    (path_result : Except String String)
    (extraction : Except String String)
    (parse_outcome : Except String CliMain.ParsedInvoice)
    (farms_config : FarmTagger.FarmsConfig)
    (dynamic_rules : List CoreRules.DynRule)
    (db : Ledger.LedgerDB) : Outcome × Ledger.LedgerDB :=
  let content_fingerprint0 := CliMain.compute_content_fingerprint ""
  match path_result with
  | .error e =>
    let db1 := (insert_document db
      { doc_id := doc_id, file_name := file_name, file_path := some pdf_path }).2
    let record := create_transaction_record doc_id "" content_fingerprint0
      none none none (some ("path_validation: " ++ e)) false
    let ins := insert_transaction_record db1 record "failed" record.error
      false none none "success" none
    if ins.1 then ({ status := "failed", reason := some "path_validation", confidence := some 0 }, ins.2)
    else ({ status := "unhandled_integrity_error" }, db1)
  | .ok pdf_path_resolved =>
    match extraction with
    | .error e =>
      let db1 := (insert_document db
        { doc_id := doc_id, file_name := file_name, file_path := some pdf_path_resolved }).2
      let record := create_transaction_record doc_id "" content_fingerprint0
        none none none (some ("vision_extraction_failed: " ++ e)) false
      let ins := insert_transaction_record db1 record "failed" record.error
        false none none "success" none
      if ins.1 then
        ({ status := "failed", reason := some "vision_extraction_failed", confidence := some 0 }, ins.2)
      else ({ status := "unhandled_integrity_error" }, db1)
    | .ok vision_text_raw =>
      if Py.strip vision_text_raw = "" then
        let db1 := (insert_document db
          { doc_id := doc_id, file_name := file_name, file_path := some pdf_path_resolved }).2
        let record := create_transaction_record doc_id "" content_fingerprint0
          none none none (some "empty_vision_extraction") false
        let ins := insert_transaction_record db1 record "failed" record.error
          false none none "success" none
        if ins.1 then
          ({ status := "failed", reason := some "empty_extraction", confidence := some 0 }, ins.2)
        else ({ status := "unhandled_integrity_error" }, db1)
      else
        let vision_text := Py.strip vision_text_raw
        let content_fingerprint := CliMain.compute_content_fingerprint vision_text
        let insDoc := insert_document db
          { doc_id := doc_id, file_name := file_name, file_path := some pdf_path_resolved,
            raw_text_hash := some (CliMain.hash_text vision_text),
            raw_text := some vision_text,
            content_fingerprint := some content_fingerprint }
        if !insDoc.1 then
          ({ status := "skipped_duplicate", reason := some "content_fingerprint" }, insDoc.2)
        else
          let db1 := insDoc.2
          let tag_result :=
            match CoreRules.apply_dynamic_rules vision_text dynamic_rules farms_config with
            | some r => r
            | none => FarmTagger.tag_document_text vision_text farms_config
          let staged := parse_stage parse_outcome
          let invoice_data : Option CliMain.ParsedInvoice :=
            match staged with
            | .ok p => some p
            | .error _ => none
          let vendor_key :=
            match invoice_data, tag_result.top_candidate with
            | some p, some top => CliMain.resolve_vendor_key top.farm_id p.vendor_name farms_config
            | _, _ => none
          match staged with
          | .error epr =>
            let record0 := create_transaction_record doc_id vision_text content_fingerprint
              (some tag_result) none none (some epr.1) false
            let record := { record0 with farm_id := none, farm_name := none }
            let ins := insert_transaction_record db1 record "failed" (some epr.1)
              false none none epr.2.1 (some epr.2.2)
            if ins.1 then
              ({ status := "failed",
                 reason := some (if epr.2.1 = "invalid_json" then "llm_parsing_failed" else "validation_failed"),
                 confidence := some tag_result.confidence }, ins.2)
            else ({ status := "unhandled_integrity_error" }, db1)
          | .ok payload =>
            if tag_result.needs_manual_review || tag_result.confidence < 17/20 then
              let record0 := create_transaction_record doc_id vision_text content_fingerprint
                (some tag_result) (some payload) vendor_key none false
              let record := { record0 with farm_id := none, farm_name := none,
                                           total_cents := some (total_cents_of payload) }
              let ins := insert_transaction_record db1 record "pending_manual" none
                false none none "success" none
              if ins.1 then
                ({ status := "manual_review", reason := some tag_result.reason,
                   confidence := some tag_result.confidence }, ins.2)
              else ({ status := "unhandled_integrity_error" }, db1)
            else
              let invoice_key := CliMain.compute_invoice_key vendor_key (some payload)
              let record0 := create_transaction_record doc_id vision_text content_fingerprint
                (some tag_result) (some payload) vendor_key none false
              let record := { record0 with total_cents := some (total_cents_of payload) }
              let ins := insert_transaction_record db1 record "auto" none
                false none none "success" none
              if ins.1 then
                ({ status := "success", confidence := some tag_result.confidence }, ins.2)
              else
                let original := db1.transactions.find?
                  (fun t => t.invoice_key = invoice_key && !t.duplicate_detected)
                let original_doc_id := original.bind (fun t => t.doc_id)
                let stub := create_duplicate_stub_record doc_id content_fingerprint
                  tag_result (some payload) vendor_key invoice_key original_doc_id
                let ins2 := insert_transaction_record db1 stub "duplicate" none
                  true (some "invoice_key") original_doc_id "success" none
                if ins2.1 then
                  ({ status := "skipped_duplicate", reason := some "invoice_key",
                     confidence := some tag_result.confidence }, ins2.2)
                else ({ status := "unhandled_integrity_error" }, db1)

end Pipeline

/-- C2: `compute_invoice_key` returns `None` whenever the vendor key is falsy
or the payload is missing; otherwise it evaluates exactly three tiers in
strict order, returning the first with sufficient fields — Tier A needs
account_number and invoice_number; Tier B needs account_number, invoice_date
and total_amount not `None` (0 or negative allowed); Tier C needs
service_address, invoice_date and total_amount — no tier yields `None`, and
with an account number present the result never depends on the service
address, so Tier C is only ever used when the account number is absent. -/
theorem C2_compute_invoice_key (vendor_key : Option String) (p : CliMain.ParsedInvoice) :
    (Py.truthy vendor_key = false →
      CliMain.compute_invoice_key vendor_key (some p) = none) ∧
    (CliMain.compute_invoice_key vendor_key none = none) ∧
    (Py.truthy vendor_key = true → Py.truthy p.account_number = true →
      Py.truthy p.invoice_number = true →
      CliMain.compute_invoice_key vendor_key (some p) =
        some (vendor_key.getD "" ++ "|acct:" ++ CliMain.norm_identifier p.account_number
          ++ "|inv:" ++ CliMain.norm_identifier p.invoice_number)) ∧
    (Py.truthy vendor_key = true → Py.truthy p.account_number = true →
      Py.truthy p.invoice_number = false → Py.truthy p.invoice_date = true →
      p.total_amount.isSome = true →
      CliMain.compute_invoice_key vendor_key (some p) =
        some (vendor_key.getD "" ++ "|acct:" ++ CliMain.norm_identifier p.account_number
          ++ "|date:" ++ CliMain.norm_date p.invoice_date
          ++ "|amt_cents:" ++ CliMain.amount_to_cents p.total_amount)) ∧
    (Py.truthy vendor_key = true → Py.truthy p.account_number = false →
      Py.truthy p.service_address = true → Py.truthy p.invoice_date = true →
      p.total_amount.isSome = true →
      CliMain.compute_invoice_key vendor_key (some p) =
        some (vendor_key.getD "" ++ "|addr:" ++ CliMain.norm_address p.service_address
          ++ "|date:" ++ CliMain.norm_date p.invoice_date
          ++ "|amt_cents:" ++ CliMain.amount_to_cents p.total_amount)) ∧
    (¬(Py.truthy p.account_number = true ∧ Py.truthy p.invoice_number = true) →
      ¬(Py.truthy p.account_number = true ∧ Py.truthy p.invoice_date = true ∧
          p.total_amount.isSome = true) →
      ¬(Py.truthy p.service_address = true ∧ Py.truthy p.invoice_date = true ∧
          p.total_amount.isSome = true) →
      CliMain.compute_invoice_key vendor_key (some p) = none) ∧
    (Py.truthy p.account_number = true → ∀ sa : Option String,
      CliMain.compute_invoice_key vendor_key (some { p with service_address := sa }) =
        CliMain.compute_invoice_key vendor_key (some p)) := by
  refine ⟨?_, ?_, ?_, ?_, ?_, ?_, ?_⟩
  · intro hv
    simp [CliMain.compute_invoice_key, hv]
  · simp [CliMain.compute_invoice_key]
  · intro hv ha hi
    simp [CliMain.compute_invoice_key, hv, ha, hi]
  · intro hv ha hi hd ht
    simp [CliMain.compute_invoice_key, hv, ha, hi, hd, ht]
  · intro hv ha hs hd ht
    simp [CliMain.compute_invoice_key, hv, ha, hs, hd, ht]
  · intro h1 h2 h3
    cases hv : Py.truthy vendor_key <;>
    cases ha : Py.truthy p.account_number <;>
    cases hi : Py.truthy p.invoice_number <;>
    cases hd : Py.truthy p.invoice_date <;>
    cases ht : p.total_amount.isSome <;>
    cases hs : Py.truthy p.service_address <;>
    simp_all [CliMain.compute_invoice_key]
  · intro ha sa
    cases hv : Py.truthy vendor_key <;>
    cases hi : Py.truthy p.invoice_number <;>
    cases hd : Py.truthy p.invoice_date <;>
    cases ht : p.total_amount.isSome <;>
    simp_all [CliMain.compute_invoice_key]

/-- Witness for C2: Tier B at a concrete payload — account number and date but
no invoice number, with a negative amount. -/
theorem C2_compute_invoice_key_witness :
    CliMain.compute_invoice_key (some "pge")
      (some { account_number := some "12-34", invoice_date := some "2024-01-15",
              total_amount := some (-50 : Rat) }) =
      some "pge|acct:1234|date:2024-01-15|amt_cents:-5000" := by
  have h := (C2_compute_invoice_key (some "pge")
    { account_number := some "12-34", invoice_date := some "2024-01-15",
      total_amount := some (-50 : Rat) }).2.2.2.1
    (by decide) (by decide) (by decide) (by decide) (by decide)
  exact h.trans (by decide)

namespace SHA256

theorem beBytes_length (n v : Nat) : (beBytes n v).length = n := by
  induction n generalizing v with
  | zero => simp [beBytes]
  | succ m ih => simp [beBytes, ih]

theorem compress_length (hs block : List Nat) : (compress hs block).length = 8 := by
  simp [compress]

theorem foldl_compress_length (bl : List (List Nat)) :
    ∀ hs : List Nat, hs.length = 8 → (bl.foldl compress hs).length = 8 := by
  induction bl with
  | nil => intro hs h; simpa using h
  | cons b rest ih =>
    intro hs _
    exact ih (compress hs b) (compress_length hs b)

theorem flatMap_const_length {α β : Type} (f : α → List β) (k : Nat) (l : List α)
    (h : ∀ x ∈ l, (f x).length = k) : (l.flatMap f).length = k * l.length := by
  induction l with
  | nil => simp
  | cons a t ih =>
    simp only [List.flatMap_cons, List.length_append, List.length_cons]
    rw [h a (List.mem_cons_self a t), ih (fun x hx => h x (List.mem_cons_of_mem a hx))]
    ring

theorem digestBytes_length (msg : List Nat) : (digestBytes msg).length = 32 := by
  unfold digestBytes
  rw [flatMap_const_length (beBytes 4) 4 _ (fun x _ => beBytes_length 4 x)]
  rw [foldl_compress_length _ H0 (by decide)]

/-- The lower-case hex alphabet (as a character list). -/
def hexAlphabet : List Char := "0123456789abcdef".toList

theorem hexChar_mem (n : Nat) : hexChar n ∈ hexAlphabet := by
  by_cases h : n < 16
  · interval_cases n <;> decide
  · have hlen : hexAlphabet.length = 16 := by decide
    have : hexChar n = '0' := by
      unfold hexChar
      exact List.getD_eq_default _ _ (by rw [show "0123456789abcdef".toList.length = 16 from by decide]; omega)
    rw [this]
    decide

theorem byteHex_chars (b : Nat) : ∀ c ∈ byteHex b, c ∈ hexAlphabet := by
  intro c hc
  rcases List.mem_cons.mp hc with h | h
  · rw [h]; exact hexChar_mem _
  · rcases List.mem_cons.mp h with h2 | h2
    · rw [h2]; exact hexChar_mem _
    · simp at h2

theorem flatMap_byteHex_chars (bytes : List Nat) :
    ∀ c ∈ bytes.flatMap byteHex, c ∈ hexAlphabet := by
  intro c hc
  rcases List.mem_flatMap.mp hc with ⟨b, _, hcb⟩
  exact byteHex_chars b c hcb

theorem flatMap_byteHex_length (bytes : List Nat) :
    (bytes.flatMap byteHex).length = 2 * bytes.length :=
  flatMap_const_length byteHex 2 bytes (fun _ _ => rfl)

/-- `hexPrefix n s` has exactly `min n 64` characters, all lower-case hex. -/
theorem hexPrefix_spec (n : Nat) (s : String) :
    (hexPrefix n s).length = min n 64 ∧
      ∀ c ∈ (hexPrefix n s).toList, c ∈ hexAlphabet := by
  constructor
  · show ((digestBytes (utf8Bytes s)).flatMap byteHex |>.take n).length = min n 64
    rw [List.length_take, flatMap_byteHex_length, digestBytes_length]
  · intro c hc
    have hc2 : c ∈ (digestBytes (utf8Bytes s)).flatMap byteHex :=
      (List.take_sublist n _).mem hc
    exact flatMap_byteHex_chars _ c hc2

end SHA256

/-- C8: `compute_content_fingerprint` is invariant under any change of text that
leaves `normalize_for_fingerprint` (lowercase, non-word/non-space to space,
whitespace collapse, trim, 50,000-char truncation) unchanged — so punctuation
noise never alters it — and every fingerprint is `"sha256:"` followed by
exactly 16 lower-case hex characters. -/
theorem C8_content_fingerprint (t1 t2 : String) :
    (CliMain.normalize_for_fingerprint t1 = CliMain.normalize_for_fingerprint t2 →
      CliMain.compute_content_fingerprint t1 = CliMain.compute_content_fingerprint t2) ∧
    (∀ t : String, ∃ h : String,
      CliMain.compute_content_fingerprint t = "sha256:" ++ h ∧
      h.length = 16 ∧ ∀ c ∈ h.toList, c ∈ SHA256.hexAlphabet) := by
  constructor
  · intro h
    unfold CliMain.compute_content_fingerprint
    rw [h]
  · intro t
    refine ⟨SHA256.hexPrefix 16 (CliMain.normalize_for_fingerprint t), rfl, ?_, ?_⟩
    · have := (SHA256.hexPrefix_spec 16 (CliMain.normalize_for_fingerprint t)).1
      simpa using this
    · exact (SHA256.hexPrefix_spec 16 (CliMain.normalize_for_fingerprint t)).2

set_option maxRecDepth 40000 in
/-- Witness for C8: the OCR-noise pair from the spec — `"Acct#12345"` and
`"Acct # 12345"` normalize identically, hence carry the same fingerprint. -/
theorem C8_content_fingerprint_witness :
    CliMain.normalize_for_fingerprint "Acct#12345" =
        CliMain.normalize_for_fingerprint "Acct # 12345" ∧
      CliMain.compute_content_fingerprint "Acct#12345" =
        CliMain.compute_content_fingerprint "Acct # 12345" :=
  ⟨by decide, (C8_content_fingerprint "Acct#12345" "Acct # 12345").1 (by decide)⟩

/-- Counterexample for C9 as stated: with the other required fields valid, an
empty `total_amount` string makes `validate_invoice_payload` fail with
`missing_required_field` — the blank-string required-field check fires before
`normalize_total_to_cents` is ever reached — not with `invalid_amount`. -/
theorem C9_empty_total_counterexample :
    Validator.validate_invoice_payload
        { vendor_name := some "PG and E", invoice_number := some "INV-1",
          invoice_date := some "2024-01-15", total_amount := some (.str "") } =
      (false, some "missing_required_field") ∧
    "missing_required_field" ≠ "invalid_amount" := by
  constructor
  · decide
  · decide

/-- C9 (amended): `normalize_total_to_cents` uses exact decimal arithmetic with
currency-symbol stripping, comma removal and parenthesis-as-negative:
`"$1,234.56"` gives 123456 cents and `"(50.00)"` gives -5000; empty or
unparseable input raises. In `validate_invoice_payload` a non-empty
unparseable amount (other fields valid) reports `invalid_amount`, an amount of
exactly 0 cents reports `zero_amount`, and an empty amount string is caught
earlier as `missing_required_field`. -/
theorem C9_normalize_total_to_cents (p : Validator.ValidatorPayload) :
    (Validator.normalize_total_to_cents (some (.str "$1,234.56")) = .ok 123456) ∧
    (Validator.normalize_total_to_cents (some (.str "(50.00)")) = .ok (-5000)) ∧
    (∃ msg, Validator.normalize_total_to_cents (some (.str "")) = .error msg) ∧
    (Validator.strFieldMissing p.vendor_name = false →
      Validator.strFieldMissing p.invoice_number = false →
      Validator.strFieldMissing p.invoice_date = false →
      Validator.totalFieldMissing p.total_amount = false →
      Validator.matchesAnyDateFormat (Py.strip (p.invoice_date.getD "")) = true →
      (∃ e, Validator.normalize_total_to_cents p.total_amount = .error e) →
      Validator.validate_invoice_payload p = (false, some "invalid_amount")) ∧
    (Validator.strFieldMissing p.vendor_name = false →
      Validator.strFieldMissing p.invoice_number = false →
      Validator.strFieldMissing p.invoice_date = false →
      Validator.totalFieldMissing p.total_amount = false →
      Validator.matchesAnyDateFormat (Py.strip (p.invoice_date.getD "")) = true →
      Validator.normalize_total_to_cents p.total_amount = .ok 0 →
      Validator.validate_invoice_payload p = (false, some "zero_amount")) ∧
    (∀ s : String, Validator.strFieldMissing p.vendor_name = false →
      Validator.strFieldMissing p.invoice_number = false →
      Validator.strFieldMissing p.invoice_date = false →
      p.total_amount = some (.str s) → Py.strip s = "" →
      Validator.validate_invoice_payload p = (false, some "missing_required_field")) := by
  refine ⟨by decide, by decide, ⟨"total_amount cannot be empty", by decide⟩, ?_, ?_, ?_⟩
  · intro h1 h2 h3 h4 h5 ⟨e, he⟩
    simp [Validator.validate_invoice_payload, h1, h2, h3, h4, h5, he]
  · intro h1 h2 h3 h4 h5 h6
    simp [Validator.validate_invoice_payload, h1, h2, h3, h4, h5, h6]
  · intro s h1 h2 h3 h4 h5
    have hmiss : Validator.totalFieldMissing p.total_amount = true := by
      rw [h4]
      simp [Validator.totalFieldMissing, h5]
    simp [Validator.validate_invoice_payload, h1, h2, h3, hmiss]

/-- Witness for C9 (amended): a payload with valid vendor, invoice number and
date but unparseable amount `"abc"` reports `invalid_amount`. -/
theorem C9_normalize_total_to_cents_witness :
    Validator.validate_invoice_payload
        { vendor_name := some "PG and E", invoice_number := some "INV-1",
          invoice_date := some "2024-01-15", total_amount := some (.str "abc") } =
      (false, some "invalid_amount") := by
  exact (C9_normalize_total_to_cents
    { vendor_name := some "PG and E", invoice_number := some "INV-1",
      invoice_date := some "2024-01-15", total_amount := some (.str "abc") }).2.2.2.1
    (by decide) (by decide) (by decide) (by decide) (by decide)
    ⟨"invalid total_amount", by decide⟩

/-- C5: `generate_rule_id` is a pure function of the normalized vendor key,
account number, farm id and the sorted normalized disambiguator lists — and is
independent of `invoice_number`, `priority`, `created_at` and `evidence` — and
`upsert_dynamic_rule` is idempotent: a second call whose payload generates the
same rule id returns `created = false` with the existing rule id and leaves
the rule set unchanged, and a first insert into a set without that id stores
exactly one rule carrying it. -/
theorem C5_rule_id_and_upsert (p1 p2 : CoreRules.RulePayload) (payload : CoreRules.RulesPayload) :
    (CoreRules.normalize_identifier p1.vendor_key = CoreRules.normalize_identifier p2.vendor_key →
      CoreRules.normalize_identifier p1.account_number = CoreRules.normalize_identifier p2.account_number →
      CoreRules.normalize_identifier p1.farm_id = CoreRules.normalize_identifier p2.farm_id →
      CoreRules.string_sorted (p1.service_address_contains.map (fun x => CoreRules.normalize_text (some x))) =
        CoreRules.string_sorted (p2.service_address_contains.map (fun x => CoreRules.normalize_text (some x))) →
      CoreRules.string_sorted (p1.keywords_any.map (fun x => CoreRules.normalize_text (some x))) =
        CoreRules.string_sorted (p2.keywords_any.map (fun x => CoreRules.normalize_text (some x))) →
      CoreRules.generate_rule_id p1 = CoreRules.generate_rule_id p2) ∧
    (∀ (inv ca : Option String) (pr : Option Int) (ev : List (String × Option String)),
      CoreRules.generate_rule_id
        { p1 with invoice_number := inv, priority := pr, created_at := ca, evidence := ev } =
        CoreRules.generate_rule_id p1) ∧
    (CoreRules.generate_rule_id p2 = CoreRules.generate_rule_id p1 →
      CoreRules.upsert_dynamic_rule (CoreRules.upsert_dynamic_rule payload p1).2.2 p2 =
        (false, (CoreRules.upsert_dynamic_rule payload p1).2.1,
          (CoreRules.upsert_dynamic_rule payload p1).2.2)) ∧
    (payload.rules.countP (fun r => r.rule_id = CoreRules.generate_rule_id p1) = 0 →
      ((CoreRules.upsert_dynamic_rule payload p1).2.2).rules.countP
        (fun r => r.rule_id = CoreRules.generate_rule_id p1) = 1) := by
  refine ⟨?_, ?_, ?_, ?_⟩
  · intro h1 h2 h3 h4 h5
    simp only [CoreRules.generate_rule_id, h1, h2, h3, h4, h5]
  · intro inv ca pr ev
    rfl
  · intro hid
    by_cases hex : payload.rules.any (fun r => r.rule_id = CoreRules.generate_rule_id p1)
    · simp [CoreRules.upsert_dynamic_rule, hex, hid]
    · simp [CoreRules.upsert_dynamic_rule, hex, hid, List.any_append]
  · intro hc
    have hex : payload.rules.any (fun r => r.rule_id = CoreRules.generate_rule_id p1) = false := by
      rw [List.any_eq_false]
      intro x hx
      have := List.countP_eq_zero.mp hc x hx
      simpa using this
    simp [CoreRules.upsert_dynamic_rule, hex, List.countP_append]
    intro a ha
    simpa using List.countP_eq_zero.mp hc a ha

/-- First payload of the C5 witness. -/
def c5_payload1 : CoreRules.RulePayload :=
  { vendor_key := some "PG&E", account_number := some "12-345",
    invoice_number := some "A1", service_address_contains := ["Main St"],
    keywords_any := [], farm_id := some "pch", priority := some 50,
    created_at := some "2026-01-01T00:00:00+00:00",
    evidence := [("doc_id", some "d1")] }

/-- Second payload of the C5 witness: same identity-bearing fields (up to
normalization), different invoice number, priority, timestamp and evidence. -/
def c5_payload2 : CoreRules.RulePayload :=
  { vendor_key := some "pg e", account_number := some "12345",
    invoice_number := some "B2", service_address_contains := ["Main St"],
    keywords_any := [], farm_id := some "pch", priority := some 999,
    created_at := some "2026-02-02T00:00:00+00:00", evidence := [] }

/-- Witness for C5: two payloads agreeing on vendor, account, farm and
disambiguators but differing in invoice number, priority, timestamp and
evidence — the second upsert creates nothing and the store holds exactly one
rule with the generated id. -/
theorem C5_rule_id_and_upsert_witness :
    CoreRules.upsert_dynamic_rule
        (CoreRules.upsert_dynamic_rule ⟨"1.0", []⟩ c5_payload1).2.2 c5_payload2 =
      (false, (CoreRules.upsert_dynamic_rule ⟨"1.0", []⟩ c5_payload1).2.1,
        (CoreRules.upsert_dynamic_rule ⟨"1.0", []⟩ c5_payload1).2.2) ∧
    ((CoreRules.upsert_dynamic_rule ⟨"1.0", []⟩ c5_payload1).2.2).rules.countP
      (fun r => r.rule_id = CoreRules.generate_rule_id c5_payload1) = 1 := by
  have hid := (C5_rule_id_and_upsert c5_payload2 c5_payload1 ⟨"1.0", []⟩).1
    (by decide) (by decide) (by decide) (by decide) (by decide)
  have hmain := C5_rule_id_and_upsert c5_payload1 c5_payload2 ⟨"1.0", []⟩
  exact ⟨hmain.2.2.1 hid, hmain.2.2.2 rfl⟩

theorem take_pos_ne_nil {α : Type} (l : List α) (n : Nat) (hl : l ≠ []) (hn : n ≠ 0) :
    l.take n ≠ [] := by
  cases l with
  | nil => exact absurd rfl hl
  | cons a t =>
    cases n with
    | zero => exact absurd rfl hn
    | succ m => simp [List.take]

/-- C6: `propose_dynamic_rules` never returns a disambiguator-free proposal —
every proposal carries a non-empty `service_address_contains` or
`keywords_any` (in particular whenever `check_account_collision` reports that
the vendor+account pair maps to more than one farm, where the final guard also
filters on exactly this property) — and at most 3 proposals are returned. -/
theorem C6_propose_dynamic_rules (doc_id selected_farm_id selected_farm_name : String)
    (row : Ledger.TxnRow) (cfg : FarmTagger.FarmsConfig)
    (drp : CoreRules.RulesPayload) (txs : List Ledger.TxnRow) (ocr : String) :
    ((ReviewManual.propose_dynamic_rules doc_id selected_farm_id selected_farm_name
        row cfg drp txs ocr).all
      (fun p => !List.isEmpty p.service_address_contains
        || !List.isEmpty p.keywords_any)) = true ∧
    (ReviewManual.propose_dynamic_rules doc_id selected_farm_id selected_farm_name
        row cfg drp txs ocr).length ≤ 3 := by
  constructor
  · rw [List.all_eq_true]
    intro p hp
    suffices h : p.service_address_contains ≠ [] ∨ p.keywords_any ≠ [] by
      rcases h with h | h
      · simp [List.isEmpty_iff, h]
      · simp [List.isEmpty_iff, h]
    simp only [ReviewManual.propose_dynamic_rules] at hp
    split at hp
    · simp at hp
    · split at hp
      · simp at hp
      · have hp2 := List.mem_of_mem_take hp
        split at hp2
        · have hpred := List.of_mem_filter hp2
          rcases Bool.or_eq_true_iff.mp hpred with h | h
          · left; simpa using h
          · right; simpa using h
        · rcases List.mem_append.mp hp2 with hL | hR
          · split at hL
            · rename_i hs
              rcases List.mem_singleton.mp hL with rfl
              left
              exact take_pos_ne_nil _ 2 hs (by omega)
            · simp at hL
          · split at hR
            · rename_i hk
              rcases List.mem_singleton.mp hR with rfl
              right
              exact take_pos_ne_nil _ 3 hk (by omega)
            · simp at hR
  · simp only [ReviewManual.propose_dynamic_rules]
    split
    · simp
    · split
      · simp
      · exact List.length_take_le 3 _


theorem strLe_trans (a b c : String) (h1 : Py.strLe a b = true) (h2 : Py.strLe b c = true) :
    Py.strLe a c = true :=
  Py.listLe_trans a.toList b.toList c.toList h1 h2

theorem strLe_total (a b : String) : Py.strLe a b || Py.strLe b a :=
  Py.listLe_total a.toList b.toList

theorem vendor_rule_sort_le_trans (a b c : CoreRules.DynRule)
    (h1 : CoreRules.vendor_rule_sort_le a b = true)
    (h2 : CoreRules.vendor_rule_sort_le b c = true) :
    CoreRules.vendor_rule_sort_le a c = true := by
  simp only [CoreRules.vendor_rule_sort_le, decide_eq_true_eq] at h1 h2 ⊢
  rcases h1 with h1 | ⟨e1, h1⟩
  · rcases h2 with h2 | ⟨e2, h2⟩
    · left; omega
    · left; omega
  · rcases h2 with h2 | ⟨e2, h2⟩
    · left; omega
    · right
      refine ⟨by omega, ?_⟩
      rcases h1 with h1 | ⟨f1, h1⟩
      · rcases h2 with h2 | ⟨f2, h2⟩
        · left; omega
        · left; omega
      · rcases h2 with h2 | ⟨f2, h2⟩
        · left; omega
        · right
          exact ⟨by omega, strLe_trans _ _ _ h1 h2⟩

theorem vendor_rule_sort_le_total (a b : CoreRules.DynRule) :
    CoreRules.vendor_rule_sort_le a b || CoreRules.vendor_rule_sort_le b a := by
  simp only [CoreRules.vendor_rule_sort_le]
  by_cases h1 : CoreRules.rule_tier a < CoreRules.rule_tier b
  · simp [h1]
  · by_cases h2 : CoreRules.rule_tier b < CoreRules.rule_tier a
    · simp [h2]
    · have ht : CoreRules.rule_tier a = CoreRules.rule_tier b := by omega
      by_cases h3 : -(a.priority.getD 100) < -(b.priority.getD 100)
      · simp [ht, h3]
      · by_cases h4 : -(b.priority.getD 100) < -(a.priority.getD 100)
        · simp [ht, h4]
        · have hp : -(a.priority.getD 100) = -(b.priority.getD 100) := by omega
          rcases Bool.or_eq_true_iff.mp
            (strLe_total (a.rule_id.getD "") (b.rule_id.getD "")) with h5 | h5
          · simp [ht, hp, h5]
          · simp [ht, hp, h5]

/-- C4: vendor+account dynamic rules are evaluated in the order produced by
`_order_vendor_rules` — a stable sort by tier ascending (0 with a
service-address clause, 1 with keywords only, 2 bare), then priority
descending, then rule id ascending — the first matching rule with a non-empty
farm id wins, a matching vendor-only rule yields confidence 0.70 with manual
review, and a matching rule with any disambiguator yields 0.99 without. -/
theorem C4_dynamic_rule_precedence (vision_text : String)
    (rules rs l1 l2 : List CoreRules.DynRule) (r : CoreRules.DynRule)
    (cfg : FarmTagger.FarmsConfig) :
    List.Perm (CoreRules.order_vendor_rules rs) rs ∧
    (CoreRules.order_vendor_rules rs).Pairwise
      (fun a b => CoreRules.vendor_rule_sort_le a b = true) ∧
    (rules ≠ [] →
      CoreRules.scan_bill_to_contains_all cfg (CoreRules.normalize_text (some vision_text))
        (rules.filter (fun rr => rr.ruleType = some "bill_to_contains_all")) = none →
      CoreRules.scan_bill_to_match cfg (CoreRules.normalize_text (some vision_text))
        (rules.filter (fun rr => rr.ruleType = some "bill_to_match")) = none →
      CoreRules.apply_dynamic_rules vision_text rules cfg =
        CoreRules.scan_vendor_rules cfg (CoreRules.normalize_text (some vision_text))
          (CoreRules.normalize_identifier (some vision_text))
          (CoreRules.order_vendor_rules (CoreRules.vendor_rule_candidates rules))) ∧
    (∀ dl di : String,
      (∀ rp ∈ l1, ¬(CoreRules.matches_rule rp dl di cfg = true ∧
        Py.strip (rp.farm_id.getD "") ≠ "")) →
      CoreRules.matches_rule r dl di cfg = true →
      Py.strip (r.farm_id.getD "") ≠ "" →
      CoreRules.scan_vendor_rules cfg dl di (l1 ++ r :: l2) =
        some (CoreRules.vendor_rule_result cfg r (Py.strip (r.farm_id.getD "")))) ∧
    (r.service_address_contains = [] → r.keywords_any = [] → ∀ fid,
      (CoreRules.vendor_rule_result cfg r fid).confidence = 7/10 ∧
        (CoreRules.vendor_rule_result cfg r fid).needs_manual_review = true) ∧
    ((r.service_address_contains ≠ [] ∨ r.keywords_any ≠ []) → ∀ fid,
      (CoreRules.vendor_rule_result cfg r fid).confidence = 99/100 ∧
        (CoreRules.vendor_rule_result cfg r fid).needs_manual_review = false) := by
  refine ⟨?_, ?_, ?_, ?_, ?_, ?_⟩
  · exact Py.stableSort_perm _ rs
  · exact Py.stableSort_sorted _ vendor_rule_sort_le_trans
      vendor_rule_sort_le_total rs
  · intro hne h1 h2
    simp only [CoreRules.apply_dynamic_rules, if_neg hne, h1, h2]
  · intro dl di hl1 hr hfid
    induction l1 with
    | nil =>
      simp only [List.nil_append, CoreRules.scan_vendor_rules, hr, if_true]
      rw [if_neg (by simpa using hfid)]
    | cons rp t ih =>
      have hskip := hl1 rp (List.mem_cons_self rp t)
      simp only [List.cons_append, CoreRules.scan_vendor_rules]
      by_cases hm : CoreRules.matches_rule rp dl di cfg = true
      · have hfe : ¬ Py.strip (rp.farm_id.getD "") ≠ "" := fun hf => hskip ⟨hm, hf⟩
        push_neg at hfe
        rw [if_pos hm, if_pos (by simpa using hfe)]
        exact ih (fun x hx => hl1 x (List.mem_cons_of_mem rp hx))
      · rw [if_neg hm]
        exact ih (fun x hx => hl1 x (List.mem_cons_of_mem rp hx))
  · intro hs hk fid
    have hcond : (!(decide (r.service_address_contains ≠ []) ||
        decide (r.keywords_any ≠ []))) = true := by
      simp [hs, hk]
    refine ⟨?_, ?_⟩
    · simp only [CoreRules.vendor_rule_result, hcond, if_true]
    · simp only [CoreRules.vendor_rule_result, hcond, if_true]
      decide
  · intro hd fid
    have hcond : (!(decide (r.service_address_contains ≠ []) ||
        decide (r.keywords_any ≠ []))) = false := by
      rcases hd with h | h <;> simp [h]
    refine ⟨?_, ?_⟩
    · simp only [CoreRules.vendor_rule_result, hcond, Bool.false_eq_true, if_false]
    · simp only [CoreRules.vendor_rule_result, hcond, Bool.false_eq_true, if_false]
      decide

/-- Farms configuration of the C4 witness. -/
def c4_cfg : FarmTagger.FarmsConfig :=
  ⟨[{ id := "pch", name := "PCH Farm",
      vendors := [("pge", { name := some "Pacific Gas and Electric" })] }]⟩

/-- Bare vendor+account rule of the C4 witness (tier 2). -/
def c4_rule_bare : CoreRules.DynRule :=
  { vendor_key := some "pge", account_number := some "12345",
    farm_id := some "pch", rule_id := some "rule_b" }

/-- Service-address rule of the C4 witness (tier 0, outranks the bare rule). -/
def c4_rule_svc : CoreRules.DynRule :=
  { vendor_key := some "pge", account_number := some "12345",
    farm_id := some "pch", service_address_contains := ["main st"],
    rule_id := some "rule_a" }

/-- Document text of the C4 witness. -/
def c4_text : String := "Pacific Gas and Electric account 12-345 at Main St"

/-- Witness for C4: with a bare rule listed before a service-address rule, the
engine still applies the service-address rule first (tier order), at
confidence 0.99 without manual review. -/
theorem C4_dynamic_rule_precedence_witness :
    CoreRules.apply_dynamic_rules c4_text [c4_rule_bare, c4_rule_svc] c4_cfg =
      some (CoreRules.vendor_rule_result c4_cfg c4_rule_svc "pch") ∧
    (CoreRules.vendor_rule_result c4_cfg c4_rule_svc "pch").confidence = 99/100 ∧
    (CoreRules.vendor_rule_result c4_cfg c4_rule_svc "pch").needs_manual_review = false := by
  have thm := C4_dynamic_rule_precedence c4_text [c4_rule_bare, c4_rule_svc] []
    [] [c4_rule_bare] c4_rule_svc c4_cfg
  have happ := thm.2.2.1 (by decide) (by decide) (by decide)
  have hord : CoreRules.order_vendor_rules
      (CoreRules.vendor_rule_candidates [c4_rule_bare, c4_rule_svc]) =
      [] ++ c4_rule_svc :: [c4_rule_bare] := by decide
  have hscan := thm.2.2.2.1 (CoreRules.normalize_text (some c4_text))
    (CoreRules.normalize_identifier (some c4_text))
    (by simp) (by decide) (by decide)
  have hfid : Py.strip (c4_rule_svc.farm_id.getD "") = "pch" := by decide
  have hmain : CoreRules.apply_dynamic_rules c4_text [c4_rule_bare, c4_rule_svc] c4_cfg =
      some (CoreRules.vendor_rule_result c4_cfg c4_rule_svc "pch") := by
    rw [happ, hord, hscan, hfid]
  have hconf := thm.2.2.2.2.2 (Or.inl (by decide)) "pch"
  exact ⟨hmain, hconf.1, hconf.2⟩

/-- The single positive-scoring candidate of `ranked_candidates` when exactly
one farm scores and it scores `(1, ["identifier_match"])`. -/
theorem ranked_candidates_single (text : String) (l1 l2 : List FarmTagger.Farm)
    (f : FarmTagger.Farm)
    (hf : FarmTagger.score_farm (Py.lower text) f = (1, ["identifier_match"]))
    (h0 : ∀ g ∈ l1 ++ l2, (FarmTagger.score_farm (Py.lower text) g).1 = 0) :
    FarmTagger.ranked_candidates text (l1 ++ f :: l2) =
      [{ farm_id := f.id, farm_name := FarmTagger.farm_display_name f,
         score := 1, matched_rules := ["identifier_match"] }] := by
  simp only [FarmTagger.ranked_candidates]
  rw [List.filterMap_append, List.filterMap_cons]
  have hnil1 : List.filterMap (FarmTagger.candidate_of (Py.lower text)) l1 = [] := by
    rw [List.filterMap_eq_nil_iff]
    intro g hg
    simp [FarmTagger.candidate_of, h0 g (List.mem_append_left l2 hg)]
  have hnil2 : List.filterMap (FarmTagger.candidate_of (Py.lower text)) l2 = [] := by
    rw [List.filterMap_eq_nil_iff]
    intro g hg
    simp [FarmTagger.candidate_of, h0 g (List.mem_append_right l1 hg)]
  have hone : FarmTagger.candidate_of (Py.lower text) f =
      some { farm_id := f.id, farm_name := FarmTagger.farm_display_name f,
             score := 1, matched_rules := ["identifier_match"] } := by
    simp [FarmTagger.candidate_of, hf]
  rw [hnil1, hnil2, hone]
  rfl

/-- Every candidate `ranked_candidates` returns has a positive score. -/
theorem ranked_candidates_pos (text : String) (farms : List FarmTagger.Farm) :
    ∀ c ∈ FarmTagger.ranked_candidates text farms, (0:Rat) < c.score := by
  intro c hc
  simp only [FarmTagger.ranked_candidates, List.mem_map] at hc
  obtain ⟨d, hd, hcd⟩ := hc
  have hd2 := (Py.stableSort_perm _ _).mem_iff.mp hd
  rw [List.mem_filterMap] at hd2
  obtain ⟨farm, _, hfd⟩ := hd2
  simp only [FarmTagger.candidate_of] at hfd
  split at hfd
  · cases hfd
    subst hcd
    assumption
  · cases hfd

/-- With a non-empty configuration and a non-empty candidate list,
`tag_document_text` builds its result from the confidence policy applied to
the top score and the gap, adjusted by the guards and rounded. -/
theorem tag_document_text_cons (text : String) (cfg : FarmTagger.FarmsConfig)
    (c : FarmTagger.TagCandidate) (rest : List FarmTagger.TagCandidate)
    (hne : cfg.farms ≠ [])
    (hcr : FarmTagger.ranked_candidates text cfg.farms = c :: rest) :
    FarmTagger.tag_document_text text cfg =
      { top_candidate := some c, all_candidates := c :: rest,
        confidence := Py.round2 (FarmTagger.guards_adjust cfg.farms (c :: rest)
          (c.score - FarmTagger.second_score_of (c :: rest))
          (FarmTagger.confidence_policy c.score
            (c.score - FarmTagger.second_score_of (c :: rest)))).1,
        needs_manual_review := (FarmTagger.guards_adjust cfg.farms (c :: rest)
          (c.score - FarmTagger.second_score_of (c :: rest))
          (FarmTagger.confidence_policy c.score
            (c.score - FarmTagger.second_score_of (c :: rest)))).2.1,
        reason := (FarmTagger.guards_adjust cfg.farms (c :: rest)
          (c.score - FarmTagger.second_score_of (c :: rest))
          (FarmTagger.confidence_policy c.score
            (c.score - FarmTagger.second_score_of (c :: rest)))).2.2 } := by
  have hpos : (0:Rat) < c.score :=
    ranked_candidates_pos text cfg.farms c (by rw [hcr]; exact List.mem_cons_self c rest)
  have hne0 : ¬ FarmTagger.top_score_of (c :: rest) = 0 := by
    simp only [FarmTagger.top_score_of]
    exact ne_of_gt hpos
  simp only [FarmTagger.tag_document_text, hcr, if_neg hne, if_neg hne0]
  rfl

/-- C3: with a non-empty farm configuration, `tag_document_text` follows the
top-down confidence policy on the top score and its gap to the runner-up:
no positive-scoring candidate gives confidence 0, no top candidate, manual
review, and reason "Zero matches found"; every ranked candidate scores
positive; `confidence_policy` yields 0.95 when top ≥ 1 and gap ≥ 0.5, 0.85
when top ≥ 1 and gap ≥ 0.3, 0.70 when top ≥ 0.5, and top/2 otherwise; with
a top candidate the result applies the policy (then the guards and 2-decimal
rounding) to that top score and gap; and a document matching exactly one
farm identifier and nothing else gets confidence 0.95 with no manual
review. -/
theorem C3_confidence_policy (text : String) (cfg : FarmTagger.FarmsConfig) :
    (cfg.farms ≠ [] → FarmTagger.ranked_candidates text cfg.farms = [] →
      FarmTagger.tag_document_text text cfg =
        { top_candidate := none, all_candidates := [], confidence := 0,
          needs_manual_review := true, reason := "Zero matches found" }) ∧
    (∀ c ∈ FarmTagger.ranked_candidates text cfg.farms, 0 < c.score) ∧
    (∀ top gap : Rat,
      (top ≥ 1 → gap ≥ 1/2 → FarmTagger.confidence_policy top gap = 19/20) ∧
      (top ≥ 1 → ¬ gap ≥ 1/2 → gap ≥ 3/10 →
        FarmTagger.confidence_policy top gap = 17/20) ∧
      (¬ (top ≥ 1 ∧ gap ≥ 1/2) → ¬ (top ≥ 1 ∧ gap ≥ 3/10) → top ≥ 1/2 →
        FarmTagger.confidence_policy top gap = 7/10) ∧
      (¬ (top ≥ 1 ∧ gap ≥ 1/2) → ¬ (top ≥ 1 ∧ gap ≥ 3/10) → ¬ top ≥ 1/2 →
        FarmTagger.confidence_policy top gap = top / 2)) ∧
    (∀ c rest, cfg.farms ≠ [] →
      FarmTagger.ranked_candidates text cfg.farms = c :: rest →
      FarmTagger.tag_document_text text cfg =
        { top_candidate := some c, all_candidates := c :: rest,
          confidence := Py.round2 (FarmTagger.guards_adjust cfg.farms (c :: rest)
            (c.score - FarmTagger.second_score_of (c :: rest))
            (FarmTagger.confidence_policy c.score
              (c.score - FarmTagger.second_score_of (c :: rest)))).1,
          needs_manual_review := (FarmTagger.guards_adjust cfg.farms (c :: rest)
            (c.score - FarmTagger.second_score_of (c :: rest))
            (FarmTagger.confidence_policy c.score
              (c.score - FarmTagger.second_score_of (c :: rest)))).2.1,
          reason := (FarmTagger.guards_adjust cfg.farms (c :: rest)
            (c.score - FarmTagger.second_score_of (c :: rest))
            (FarmTagger.confidence_policy c.score
              (c.score - FarmTagger.second_score_of (c :: rest)))).2.2 }) ∧
    (∀ l1 f l2, cfg.farms = l1 ++ f :: l2 →
      FarmTagger.score_farm (Py.lower text) f = (1, ["identifier_match"]) →
      (∀ g ∈ l1 ++ l2, (FarmTagger.score_farm (Py.lower text) g).1 = 0) →
      (FarmTagger.tag_document_text text cfg).confidence = 19/20 ∧
      (FarmTagger.tag_document_text text cfg).needs_manual_review = false) := by
  have hposAll := ranked_candidates_pos text cfg.farms
  have hmain := fun c rest hne hcr => tag_document_text_cons text cfg c rest hne hcr
  refine ⟨?_, hposAll, ?_, hmain, ?_⟩
  · intro hne hzero
    simp [FarmTagger.tag_document_text, hzero, hne, FarmTagger.top_score_of]
  · intro top gap
    refine ⟨?_, ?_, ?_, ?_⟩
    · intro h1 h2
      simp only [FarmTagger.confidence_policy]
      rw [if_pos ⟨h1, h2⟩]
    · intro h1 hn h3
      simp only [FarmTagger.confidence_policy]
      rw [if_neg (fun h => hn h.2), if_pos ⟨h1, h3⟩]
    · intro hn1 hn2 h5
      simp only [FarmTagger.confidence_policy]
      rw [if_neg hn1, if_neg hn2, if_pos h5]
    · intro hn1 hn2 hn3
      simp only [FarmTagger.confidence_policy]
      rw [if_neg hn1, if_neg hn2, if_neg hn3]
  · intro l1 f l2 hfarms hf h0
    have hne : cfg.farms ≠ [] := by
      rw [hfarms]; exact List.append_ne_nil_of_right_ne_nil l1 (by simp)
    have hcands := ranked_candidates_single text l1 l2 f hf h0
    rw [← hfarms] at hcands
    have hd := hmain _ [] hne hcands
    rw [hd]
    have hg2 : FarmTagger.vendor_guard_fires cfg.farms
        [{ farm_id := f.id, farm_name := FarmTagger.farm_display_name f,
           score := 1, matched_rules := ["identifier_match"] }] = false := rfl
    constructor
    · simp only [FarmTagger.guards_adjust, hg2]
      norm_num [FarmTagger.keyword_guard_fires, FarmTagger.has_identifier_match,
        FarmTagger.second_score_of, FarmTagger.confidence_policy, Py.round2, Py.pyRound]
    · simp only [FarmTagger.guards_adjust, hg2]
      norm_num [FarmTagger.keyword_guard_fires, FarmTagger.has_identifier_match,
        FarmTagger.second_score_of, FarmTagger.confidence_policy]

/-- Farms configuration of the C3 witness: one farm with a lone identifier. -/
def c3_cfg : FarmTagger.FarmsConfig :=
  ⟨[{ id := "farmA", name := "Farm A", identifiers := ["123 Main St"] }]⟩

/-- Document text of the C3 witness. -/
def c3_text : String := "Invoice for 123 Main St"

/-- Witness for C3: a document matching exactly one farm identifier and
nothing else gets confidence 0.95 with no manual review. -/
theorem C3_confidence_policy_witness :
    (FarmTagger.tag_document_text c3_text c3_cfg).confidence = 19/20 ∧
    (FarmTagger.tag_document_text c3_text c3_cfg).needs_manual_review = false := by
  have h := (C3_confidence_policy c3_text c3_cfg).2.2.2.2
  exact h [] { id := "farmA", name := "Farm A", identifiers := ["123 Main St"] } []
    rfl (by decide) (by simp)

/-- C7: the post-adjustment guards of `tag_document_text` can only lower the
policy confidence, never raise it; the final manual-review flag is set exactly
when a guard fired or the policy confidence is below 0.85; with a top
candidate the returned confidence is the guard-adjusted policy confidence
rounded to 2 decimals, and `round2` always produces an integer number of
hundredths. -/
theorem C7_guards_only_lower (farms : List FarmTagger.Farm)
    (candidates : List FarmTagger.TagCandidate) (gap conf0 : Rat) :
    (FarmTagger.guards_adjust farms candidates gap conf0).1 ≤ conf0 ∧
    ((FarmTagger.guards_adjust farms candidates gap conf0).2.1 =
      (FarmTagger.keyword_guard_fires candidates gap
        || FarmTagger.vendor_guard_fires farms candidates
        || decide (conf0 < 17/20))) ∧
    (∀ text cfg c rest, FarmTagger.FarmsConfig.farms cfg ≠ [] →
      FarmTagger.ranked_candidates text cfg.farms = c :: rest →
      (FarmTagger.tag_document_text text cfg).confidence =
        Py.round2 (FarmTagger.guards_adjust cfg.farms (c :: rest)
          (c.score - FarmTagger.second_score_of (c :: rest))
          (FarmTagger.confidence_policy c.score
            (c.score - FarmTagger.second_score_of (c :: rest)))).1) ∧
    (∀ q : Rat, ∃ n : Int, Py.round2 q = (n : Rat) / 100) := by
  refine ⟨?_, ?_, ?_, fun q => ⟨Py.pyRound (q * 100), rfl⟩⟩
  · by_cases hg1 : FarmTagger.keyword_guard_fires candidates gap
      <;> by_cases hg2 : FarmTagger.vendor_guard_fires farms candidates
      <;> simp only [FarmTagger.guards_adjust, hg1, hg2, if_true, if_false,
        Bool.false_eq_true, ite_true, ite_false]
    · exact le_trans (min_le_left _ _) (min_le_left _ _)
    · exact min_le_left _ _
    · exact min_le_left _ _
    · exact le_refl _
  · by_cases hg1 : FarmTagger.keyword_guard_fires candidates gap
      <;> by_cases hg2 : FarmTagger.vendor_guard_fires farms candidates
      <;> simp [FarmTagger.guards_adjust, hg1, hg2]
  · intro text cfg c rest hne hcr
    rw [tag_document_text_cons text cfg c rest hne hcr]

/-- The single ranked candidate of the C7 witness configuration. -/
def c7_cand : FarmTagger.TagCandidate :=
  { farm_id := "farmA", farm_name := "Farm A", score := 1,
    matched_rules := ["identifier_match"] }

/-- Witness for C7: on the concrete single-identifier configuration the
returned confidence is the rounded guard-adjusted policy confidence. -/
theorem C7_guards_only_lower_witness :
    (FarmTagger.tag_document_text c3_text c3_cfg).confidence =
      Py.round2 (FarmTagger.guards_adjust c3_cfg.farms [c7_cand]
        (c7_cand.score - FarmTagger.second_score_of [c7_cand])
        (FarmTagger.confidence_policy c7_cand.score
          (c7_cand.score - FarmTagger.second_score_of [c7_cand]))).1 :=
  (C7_guards_only_lower c3_cfg.farms [c7_cand] 0 0).2.2.1 c3_text c3_cfg c7_cand []
    (by decide) (by decide)

/-- `insert_document` never changes the transactions table. -/
theorem insert_document_transactions (db : Ledger.LedgerDB) (row : Ledger.DocRow) :
    (Pipeline.insert_document db row).2.transactions = db.transactions := by
  simp only [Pipeline.insert_document]
  split
  · rfl
  · rfl

/-- A successful `insert_transaction_record` appends exactly its row. -/
theorem insert_txn_eq_of_true (db : Ledger.LedgerDB) (rec : Pipeline.TxnRecord)
    (s : String) (er : Option String) (dd : Bool) (dr dof : Option String)
    (ps : String) (pf : Option String)
    (h : (Pipeline.insert_transaction_record db rec s er dd dr dof ps pf).1 = true) :
    Pipeline.insert_transaction_record db rec s er dd dr dof ps pf =
      (true, { db with transactions := db.transactions ++
        [Pipeline.txn_row_of rec s er dd dr dof ps pf] }) := by
  simp only [Pipeline.insert_transaction_record] at h ⊢
  split at h
  · simp at h
  · rename_i hc
    rw [if_neg hc]

/-- C10: whenever `process_single_invoice` routes a document to the
manual-review outcome or to an LLM-parse/validation failure outcome, the
transaction row it persists carries `farm_id = NULL` and `farm_name = NULL`,
even when the tagger produced a top candidate. -/
theorem C10_manual_and_failure_clear_farm
    (doc_id file_name pdf_path : String)
    (path_result extraction : Except String String)
    (parse_outcome : Except String CliMain.ParsedInvoice)
    (farms_config : FarmTagger.FarmsConfig)
    (dynamic_rules : List CoreRules.DynRule)
    (db : Ledger.LedgerDB)
    (h : (Pipeline.process_single_invoice doc_id file_name pdf_path path_result
        extraction parse_outcome farms_config dynamic_rules db).1.status = "manual_review" ∨
      ((Pipeline.process_single_invoice doc_id file_name pdf_path path_result
        extraction parse_outcome farms_config dynamic_rules db).1.status = "failed" ∧
        ((Pipeline.process_single_invoice doc_id file_name pdf_path path_result
            extraction parse_outcome farms_config dynamic_rules db).1.reason =
            some "llm_parsing_failed" ∨
          (Pipeline.process_single_invoice doc_id file_name pdf_path path_result
            extraction parse_outcome farms_config dynamic_rules db).1.reason =
            some "validation_failed"))) :
    ∃ r : Ledger.TxnRow,
      (Pipeline.process_single_invoice doc_id file_name pdf_path path_result
        extraction parse_outcome farms_config dynamic_rules db).2.transactions =
        db.transactions ++ [r] ∧
      r.farm_id = none ∧ r.farm_name = none := by
  cases path_result with
  | error e =>
    exfalso
    simp only [Pipeline.process_single_invoice] at h
    split at h
    · exact absurd h (by first | decide | (dsimp only; decide))
    · exact absurd h (by first | decide | (dsimp only; decide))
  | ok rp =>
    cases extraction with
    | error e =>
      exfalso
      simp only [Pipeline.process_single_invoice] at h
      split at h
      · exact absurd h (by first | decide | (dsimp only; decide))
      · exact absurd h (by first | decide | (dsimp only; decide))
    | ok vt =>
      by_cases hstrip : Py.strip vt = ""
      · exfalso
        simp only [Pipeline.process_single_invoice, if_pos hstrip] at h
        split at h
        · exact absurd h (by first | decide | (dsimp only; decide))
        · exact absurd h (by first | decide | (dsimp only; decide))
      · simp only [Pipeline.process_single_invoice, if_neg hstrip] at h ⊢
        by_cases hdoc : (Pipeline.insert_document db
            { doc_id := doc_id, file_name := file_name, file_path := some rp,
              raw_text_hash := some (CliMain.hash_text (Py.strip vt)),
              raw_text := some (Py.strip vt),
              content_fingerprint :=
                some (CliMain.compute_content_fingerprint (Py.strip vt)) }).1 = true
        · simp only [hdoc, Bool.not_true, Bool.false_eq_true, if_false] at h ⊢
          cases hst : Pipeline.parse_stage parse_outcome with
          | error epr =>
            simp only [hst] at h ⊢
            split at h
            · rename_i heq
              rw [if_pos heq]
              simp only [insert_txn_eq_of_true _ _ _ _ _ _ _ _ _ heq,
                insert_document_transactions]
              exact ⟨_, rfl, rfl, rfl⟩
            · exact absurd h (by first | decide | (dsimp only; decide))
          | ok payload =>
            simp only [hst] at h ⊢
            cases hdr : CoreRules.apply_dynamic_rules (Py.strip vt) dynamic_rules
                farms_config with
            | some r =>
              simp only [hdr] at h ⊢
              by_cases hman : (r.needs_manual_review || decide (r.confidence < 17/20)) = true
              · simp only [hman, if_true] at h ⊢
                split at h
                · rename_i heq
                  rw [if_pos heq]
                  simp only [insert_txn_eq_of_true _ _ _ _ _ _ _ _ _ heq,
                    insert_document_transactions]
                  exact ⟨_, rfl, rfl, rfl⟩
                · exact absurd h (by first | decide | (dsimp only; decide))
              · exfalso
                simp only [Bool.not_eq_true] at hman
                simp only [hman, Bool.false_eq_true, if_false] at h
                split at h
                · exact absurd h (by first | decide | (dsimp only; decide))
                · split at h
                  · exact absurd h (by first | decide | (dsimp only; decide))
                  · exact absurd h (by first | decide | (dsimp only; decide))
            | none =>
              simp only [hdr] at h ⊢
              by_cases hman : ((FarmTagger.tag_document_text (Py.strip vt)
                    farms_config).needs_manual_review
                  || decide ((FarmTagger.tag_document_text (Py.strip vt)
                    farms_config).confidence < 17/20)) = true
              · simp only [hman, if_true] at h ⊢
                split at h
                · rename_i heq
                  rw [if_pos heq]
                  simp only [insert_txn_eq_of_true _ _ _ _ _ _ _ _ _ heq,
                    insert_document_transactions]
                  exact ⟨_, rfl, rfl, rfl⟩
                · exact absurd h (by first | decide | (dsimp only; decide))
              · exfalso
                simp only [Bool.not_eq_true] at hman
                simp only [hman, Bool.false_eq_true, if_false] at h
                split at h
                · exact absurd h (by first | decide | (dsimp only; decide))
                · split at h
                  · exact absurd h (by first | decide | (dsimp only; decide))
                  · exact absurd h (by first | decide | (dsimp only; decide))
        · exfalso
          simp only [Bool.not_eq_true] at hdoc
          simp only [hdoc, Bool.not_false, if_true] at h
          exact absurd h (by decide)

/-- Parsed payload of the C10 witness: passes validation. -/
def c10_payload : CliMain.ParsedInvoice :=
  { vendor_name := some "PGE", invoice_number := some "123",
    invoice_date := some "2024-01-15", total_amount := some 50 }

/-- Witness for C10: with no farms configured the document goes to manual
review and the persisted transaction row carries no farm attribution. -/
theorem C10_manual_and_failure_clear_farm_witness :
    ∃ r : Ledger.TxnRow,
      (Pipeline.process_single_invoice "doc1" "f.pdf" "/p" (.ok "/p")
        (.ok "Some invoice text") (.ok c10_payload) ⟨[]⟩ []
        ⟨[], []⟩).2.transactions =
        Ledger.LedgerDB.transactions ⟨[], []⟩ ++ [r] ∧
      r.farm_id = none ∧ r.farm_name = none :=
  C10_manual_and_failure_clear_farm "doc1" "f.pdf" "/p" (.ok "/p")
    (.ok "Some invoice text") (.ok c10_payload) ⟨[]⟩ [] ⟨[], []⟩
    (Or.inl (by decide))

/-- `insert_transaction_record` never changes the documents table. -/
theorem insert_txn_documents (db : Ledger.LedgerDB) (rec : Pipeline.TxnRecord)
    (s : String) (er : Option String) (dd : Bool) (dr dof : Option String)
    (ps : String) (pf : Option String) :
    (Pipeline.insert_transaction_record db rec s er dd dr dof ps pf).2.documents =
      db.documents := by
  simp only [Pipeline.insert_transaction_record]
  split
  · rfl
  · rfl

/-- C1: content-fingerprint deduplication in `process_single_invoice`. When a
persisted document already carries the fingerprint of the stripped extracted
text, the run returns `skipped_duplicate / content_fingerprint` with the
ledger unchanged — no new document row and no new transaction row — whatever
the parse outcome, farm configuration and dynamic rules, so it short-circuits
before any farm classification or LLM parse. On a fresh fingerprint the run
persists a document row carrying that fingerprint; a run reporting status
"success" persists exactly one non-duplicate transaction; and resubmitting
text with the same fingerprint afterwards short-circuits with the ledger
unchanged. -/
theorem C1_fingerprint_dedup
    (doc_id file_name pdf_path rp vt : String)
    (parse_outcome : Except String CliMain.ParsedInvoice)
    (farms_config : FarmTagger.FarmsConfig)
    (dynamic_rules : List CoreRules.DynRule)
    (db : Ledger.LedgerDB)
    (hvt : Py.strip vt ≠ "") :
    (db.documents.any (fun d => d.content_fingerprint =
        some (CliMain.compute_content_fingerprint (Py.strip vt))) = true →
      Pipeline.process_single_invoice doc_id file_name pdf_path (.ok rp) (.ok vt)
          parse_outcome farms_config dynamic_rules db =
        ({ status := "skipped_duplicate", reason := some "content_fingerprint" }, db)) ∧
    (db.documents.any (fun d => d.content_fingerprint =
        some (CliMain.compute_content_fingerprint (Py.strip vt))) = false →
      (Pipeline.process_single_invoice doc_id file_name pdf_path (.ok rp) (.ok vt)
          parse_outcome farms_config dynamic_rules db).2.documents =
        db.documents ++
          [{ doc_id := doc_id, file_name := file_name, file_path := some rp,
             raw_text_hash := some (CliMain.hash_text (Py.strip vt)),
             raw_text := some (Py.strip vt),
             content_fingerprint :=
               some (CliMain.compute_content_fingerprint (Py.strip vt)) }]) ∧
    (db.documents.any (fun d => d.content_fingerprint =
        some (CliMain.compute_content_fingerprint (Py.strip vt))) = false →
      (Pipeline.process_single_invoice doc_id file_name pdf_path (.ok rp) (.ok vt)
          parse_outcome farms_config dynamic_rules db).1.status = "success" →
      ∃ r : Ledger.TxnRow,
        (Pipeline.process_single_invoice doc_id file_name pdf_path (.ok rp) (.ok vt)
          parse_outcome farms_config dynamic_rules db).2.transactions =
          db.transactions ++ [r] ∧
        r.duplicate_detected = false) ∧
    (db.documents.any (fun d => d.content_fingerprint =
        some (CliMain.compute_content_fingerprint (Py.strip vt))) = false →
      ∀ (doc_id2 file_name2 pdf_path2 rp2 vt2 : String)
        (parse2 : Except String CliMain.ParsedInvoice)
        (farms2 : FarmTagger.FarmsConfig) (rules2 : List CoreRules.DynRule),
        Py.strip vt2 ≠ "" →
        CliMain.compute_content_fingerprint (Py.strip vt2) =
          CliMain.compute_content_fingerprint (Py.strip vt) →
        Pipeline.process_single_invoice doc_id2 file_name2 pdf_path2 (.ok rp2) (.ok vt2)
            parse2 farms2 rules2
            (Pipeline.process_single_invoice doc_id file_name pdf_path (.ok rp) (.ok vt)
              parse_outcome farms_config dynamic_rules db).2 =
          ({ status := "skipped_duplicate", reason := some "content_fingerprint" },
            (Pipeline.process_single_invoice doc_id file_name pdf_path (.ok rp) (.ok vt)
              parse_outcome farms_config dynamic_rules db).2)) := by
  have hshort : ∀ (d2 f2 p2 rp2 vt2 : String)
      (parse2 : Except String CliMain.ParsedInvoice)
      (farms2 : FarmTagger.FarmsConfig) (rules2 : List CoreRules.DynRule)
      (db2 : Ledger.LedgerDB), Py.strip vt2 ≠ "" →
      db2.documents.any (fun d => d.content_fingerprint =
        some (CliMain.compute_content_fingerprint (Py.strip vt2))) = true →
      Pipeline.process_single_invoice d2 f2 p2 (.ok rp2) (.ok vt2) parse2 farms2
          rules2 db2 =
        ({ status := "skipped_duplicate", reason := some "content_fingerprint" }, db2) := by
    intro d2 f2 p2 rp2 vt2 parse2 farms2 rules2 db2 hvt2 hdup
    have hins : Pipeline.insert_document db2
        { doc_id := d2, file_name := f2, file_path := some rp2,
          raw_text_hash := some (CliMain.hash_text (Py.strip vt2)),
          raw_text := some (Py.strip vt2),
          content_fingerprint :=
            some (CliMain.compute_content_fingerprint (Py.strip vt2)) } =
        (false, db2) := by
      simp [Pipeline.insert_document, hdup]
    simp [Pipeline.process_single_invoice, if_neg hvt2, hins]
  have hdocs : db.documents.any (fun d => d.content_fingerprint =
        some (CliMain.compute_content_fingerprint (Py.strip vt))) = false →
      (Pipeline.process_single_invoice doc_id file_name pdf_path (.ok rp) (.ok vt)
          parse_outcome farms_config dynamic_rules db).2.documents =
        db.documents ++
          [{ doc_id := doc_id, file_name := file_name, file_path := some rp,
             raw_text_hash := some (CliMain.hash_text (Py.strip vt)),
             raw_text := some (Py.strip vt),
             content_fingerprint :=
               some (CliMain.compute_content_fingerprint (Py.strip vt)) }] := by
    intro hfresh
    have hins2 : Pipeline.insert_document db
        { doc_id := doc_id, file_name := file_name, file_path := some rp,
          raw_text_hash := some (CliMain.hash_text (Py.strip vt)),
          raw_text := some (Py.strip vt),
          content_fingerprint :=
            some (CliMain.compute_content_fingerprint (Py.strip vt)) } =
        (true, { db with documents := db.documents ++
          [{ doc_id := doc_id, file_name := file_name, file_path := some rp,
             raw_text_hash := some (CliMain.hash_text (Py.strip vt)),
             raw_text := some (Py.strip vt),
             content_fingerprint :=
               some (CliMain.compute_content_fingerprint (Py.strip vt)) }] }) := by
      simp [Pipeline.insert_document, hfresh]
    simp only [Pipeline.process_single_invoice, if_neg hvt, hins2, Bool.not_true,
      Bool.false_eq_true, if_false]
    cases hst : Pipeline.parse_stage parse_outcome with
    | error epr =>
      simp only [hst]
      split
      · simp only [insert_txn_documents]
      · rfl
    | ok payload =>
      simp only [hst]
      cases hdr : CoreRules.apply_dynamic_rules (Py.strip vt) dynamic_rules
          farms_config <;> simp only [hdr] <;> repeat' split
      all_goals first
        | rfl
        | simp only [insert_txn_documents]
  refine ⟨fun hdup => hshort doc_id file_name pdf_path rp vt parse_outcome
    farms_config dynamic_rules db hvt hdup, hdocs, ?_, ?_⟩
  · intro hfresh hsucc
    have hins2 : Pipeline.insert_document db
        { doc_id := doc_id, file_name := file_name, file_path := some rp,
          raw_text_hash := some (CliMain.hash_text (Py.strip vt)),
          raw_text := some (Py.strip vt),
          content_fingerprint :=
            some (CliMain.compute_content_fingerprint (Py.strip vt)) } =
        (true, { db with documents := db.documents ++
          [{ doc_id := doc_id, file_name := file_name, file_path := some rp,
             raw_text_hash := some (CliMain.hash_text (Py.strip vt)),
             raw_text := some (Py.strip vt),
             content_fingerprint :=
               some (CliMain.compute_content_fingerprint (Py.strip vt)) }] }) := by
      simp [Pipeline.insert_document, hfresh]
    simp only [Pipeline.process_single_invoice, if_neg hvt, hins2, Bool.not_true,
      Bool.false_eq_true, if_false] at hsucc ⊢
    cases hst : Pipeline.parse_stage parse_outcome with
    | error epr =>
      exfalso
      simp only [hst] at hsucc
      split at hsucc
      · exact absurd hsucc (by first | decide | (dsimp only; decide))
      · exact absurd hsucc (by first | decide | (dsimp only; decide))
    | ok payload =>
      simp only [hst] at hsucc ⊢
      cases hdr : CoreRules.apply_dynamic_rules (Py.strip vt) dynamic_rules
          farms_config with
      | some r0 =>
        simp only [hdr] at hsucc ⊢
        by_cases hman : (r0.needs_manual_review
            || decide (r0.confidence < 17/20)) = true
        · exfalso
          simp only [hman, if_true] at hsucc
          split at hsucc
          · exact absurd hsucc (by first | decide | (dsimp only; decide))
          · exact absurd hsucc (by first | decide | (dsimp only; decide))
        · simp only [Bool.not_eq_true] at hman
          simp only [hman, Bool.false_eq_true, if_false] at hsucc ⊢
          split at hsucc
          · rename_i heq
            rw [if_pos heq]
            simp only [insert_txn_eq_of_true _ _ _ _ _ _ _ _ _ heq,
              insert_document_transactions]
            exact ⟨_, rfl, rfl⟩
          · exfalso
            split at hsucc
            · exact absurd hsucc (by first | decide | (dsimp only; decide))
            · exact absurd hsucc (by first | decide | (dsimp only; decide))
      | none =>
        simp only [hdr] at hsucc ⊢
        by_cases hman : ((FarmTagger.tag_document_text (Py.strip vt)
              farms_config).needs_manual_review
            || decide ((FarmTagger.tag_document_text (Py.strip vt)
              farms_config).confidence < 17/20)) = true
        · exfalso
          simp only [hman, if_true] at hsucc
          split at hsucc
          · exact absurd hsucc (by first | decide | (dsimp only; decide))
          · exact absurd hsucc (by first | decide | (dsimp only; decide))
        · simp only [Bool.not_eq_true] at hman
          simp only [hman, Bool.false_eq_true, if_false] at hsucc ⊢
          split at hsucc
          · rename_i heq
            rw [if_pos heq]
            simp only [insert_txn_eq_of_true _ _ _ _ _ _ _ _ _ heq,
              insert_document_transactions]
            exact ⟨_, rfl, rfl⟩
          · exfalso
            split at hsucc
            · exact absurd hsucc (by first | decide | (dsimp only; decide))
            · exact absurd hsucc (by first | decide | (dsimp only; decide))
  · intro hfresh doc_id2 file_name2 pdf_path2 rp2 vt2 parse2 farms2 rules2 hvt2 hfp
    apply hshort
    · exact hvt2
    · rw [hdocs hfresh, List.any_append]
      simp [hfp]

/-- Witness for C1: resubmitting the same text right after a first run
short-circuits as `skipped_duplicate / content_fingerprint` with the ledger
unchanged. -/
theorem C1_fingerprint_dedup_witness :
    Pipeline.process_single_invoice "doc2" "b.pdf" "/q" (.ok "/q") (.ok "Invoice text")
        (.error "llm down") ⟨[]⟩ []
        (Pipeline.process_single_invoice "doc1" "a.pdf" "/p" (.ok "/p") (.ok "Invoice text")
          (.error "llm down") ⟨[]⟩ [] ⟨[], []⟩).2 =
      ({ status := "skipped_duplicate", reason := some "content_fingerprint" },
        (Pipeline.process_single_invoice "doc1" "a.pdf" "/p" (.ok "/p") (.ok "Invoice text")
          (.error "llm down") ⟨[]⟩ [] ⟨[], []⟩).2) :=
  (C1_fingerprint_dedup "doc1" "a.pdf" "/p" "/p" "Invoice text" (.error "llm down")
      ⟨[]⟩ [] ⟨[], []⟩ (by decide)).2.2.2 rfl "doc2" "b.pdf" "/q" "/q"
    "Invoice text" (.error "llm down") ⟨[]⟩ [] (by decide) rfl
